import Mathlib

/-!
Verification of the cave decoding/conversion engine of the `bouldercaves`
repository (`bouldercaves/caves.py`): the Boulder Dash pseudo random
generator, the drawing primitives, the instruction-stream interpreter, the
object-code translation tables, the cave model with resizing, and the cave
set catalog.  Python functions are embedded as Lean functions; fallible
Python operations (index errors, key errors, assertions, `raise`) are
embedded in the `Except String` monad.  Machine bytes are `Nat` with the
masking the source performs; Python indices that may be negative are `Int`.
-/

namespace BC


/-- Modelled from the spec: the `objects` module (not under `src/`) provides
distinct `GameObject` constants; the spec data model ("Cave grid cell: a
(GameObject, Direction) pair") treats them as distinct typed objects.  One
constructor per constant that `caves.py` and the editor reference. -/
inductive GameObject where
  | EMPTY | DIRT | BRICK | MAGICWALL | OUTBOXCLOSED | OUTBOXBLINKING | OUTBOXHIDDEN
  | STEEL | FIREFLY | ALTFIREFLY | BOULDER | DIAMOND | INBOXBLINKING | BUTTERFLY
  | ALTBUTTERFLY | ROCKFORD | AMOEBA | HEXPANDINGWALL | VEXPANDINGWALL | VOODOO | SLIME
  deriving DecidableEq, Repr, BEq

/-- Modelled from the spec: the `Direction` enumeration of the `objects`
module ("Direction is NOWHERE unless the object is inherently directional"). -/
inductive Direction where
  | NOWHERE | LEFT | RIGHT | UP | DOWN
  deriving DecidableEq, Repr, BEq

/-- A cave grid cell: `(GameObject, Direction)`. -/
abbrev Cell := GameObject × Direction

/-- A palette slot value: either a small integer index into the fixed
C64 color table, or a literal color string such as `"#ff8800"` (the Python
code stores `Union[int, str]`). -/
inductive ColorV where
  | idx (n : Int)
  | lit (s : String)
  deriving DecidableEq, Repr, BEq

/-! ### Python operational helpers
List indexing / slicing / `range` with CPython semantics (negative indices
address from the end; out-of-range raises). -/

/-- Python `l[i]` for ints `i` (negative indices wrap once; otherwise
`IndexError`). -/
def pythonGet {α : Type} (l : List α) (i : Int) : Except String α :=
  if h : 0 ≤ i ∧ i < l.length then
    .ok (l.get ⟨i.toNat, by omega⟩)
  else if h2 : -(l.length : Int) ≤ i ∧ i < 0 then
    .ok (l.get ⟨((l.length : Int) + i).toNat, by omega⟩)
  else .error "IndexError: list index out of range"

/-- Python `buf[i] = v` for a `bytearray` (value must be a byte; negative
indices wrap once; otherwise `IndexError`). -/
def pythonSet (l : List Nat) (i : Int) (v : Nat) : Except String (List Nat) :=
  if 255 < v then .error "ValueError: byte must be in range(0, 256)"
  else if 0 ≤ i ∧ i < (l.length : Int) then .ok (l.set i.toNat v)
  else if -(l.length : Int) ≤ i ∧ i < 0 then .ok (l.set ((l.length : Int) + i).toNat v)
  else .error "IndexError: bytearray index out of range"

/-- Python `range(a, b)` as a list of `Int`. -/
def pythonRange (a b : Int) : List Int :=
  (List.range (b - a).toNat).map (fun (k : Nat) => a + (k : Int))

/-- Python `data[n]` for a nonnegative index (raises `IndexError` past the
end). -/
def getByte (data : List Nat) (n : Nat) : Except String Nat :=
  if h : n < data.length then .ok (data.get ⟨n, h⟩)
  else .error "IndexError: list index out of range"

/-- Python `math.floor(a / 2)` for an int `a` (floor division). -/
def pyHalfFloor (a : Int) : Int := Int.fdiv a 2

/-- Python `math.ceil(a / 2)` for an int `a`. -/
def pyHalfCeil (a : Int) : Int := Int.fdiv (a + 1) 2

/-- Python `filler[:k]` slice (clamping; negative `k` counts from the end). -/
def pySliceTo {α : Type} (l : List α) (k : Int) : List α :=
  if 0 ≤ k then l.take k.toNat else l.take ((l.length : Int) + k).toNat

/-! ### Palette (`class Palette` of `caves.py`) -/

/-- `Palette._color`: an int index is kept; a string starting with `#` is a
literal; any other string must parse as an int in `0 ..= len(colorpalette)`
(the table has 16 entries, and the source compares with `<=`). -/
def Palette.check_color (color : ColorV) : Except String ColorV :=
  match color with
  | .idx n => .ok (.idx n)
  | .lit s =>
      if s.startsWith "#" then .ok (.lit s)
      else match s.toInt? with
        | some c =>
            if 0 ≤ c ∧ c ≤ 16 then .ok (.idx c)
            else .error ("invalid palette color: " ++ s)
        | none => .error ("invalid palette color: " ++ s)

/-- The seven logical color slots of `Palette`. -/
structure Palette where
  fg1 : ColorV
  fg2 : ColorV
  fg3 : ColorV
  amoeba : ColorV
  slime : ColorV
  screen : ColorV
  border : ColorV
  deriving DecidableEq, Repr

/-- `Palette.__init__` (each argument is passed through `_color`). -/
def Palette.init (fg1 fg2 fg3 amoeba slime screen border : ColorV) : Except String Palette := do
  let fg1 ← Palette.check_color fg1
  let fg2 ← Palette.check_color fg2
  let fg3 ← Palette.check_color fg3
  let amoeba ← Palette.check_color amoeba
  let slime ← Palette.check_color slime
  let screen ← Palette.check_color screen
  let border ← Palette.check_color border
  .ok { fg1 := fg1, fg2 := fg2, fg3 := fg3, amoeba := amoeba,
        slime := slime, screen := screen, border := border }

/-- `Palette()` with the default arguments `fg1=8, fg2=11, fg3=1, amoeba=5,
slime=6, screen=0, border=0` (all ints, so `_color` accepts them). -/
def Palette.default : Palette :=
  { fg1 := .idx 8, fg2 := .idx 11, fg3 := .idx 1, amoeba := .idx 5,
    slime := .idx 6, screen := .idx 0, border := .idx 0 }

/-! ### The structured-text (BDCFF) collaborator -/

/-- Modelled from the spec: the external structured-format reader (module
`bdcff`, not under `src/`) supplies per-cave width, height, intermission
flag, timing/scoring/amoeba/magic-wall/slime fields, seven color-slot
values and a rectangular array of one-character symbols.  The default
values below are not fixed by the spec; no claim depends on them (the
decode pipeline overwrites every field a claim mentions). -/
structure BdcffCave where
  name : String := ""
  description : String := ""
  width : Nat := 40
  height : Nat := 22
  intermission : Bool := false
  wraparound : Bool := false
  magicwalltime : Nat := 999
  amoebatime : Nat := 999
  diamondvalue_normal : Nat := 0
  diamondvalue_extra : Nat := 0
  diamonds_required : Nat := 0
  amoebafactor : Rat := 2273 / 10000
  cavetime : Nat := 999
  slimepermeability : Rat := 1
  color_fg1 : ColorV := .idx 8
  color_fg2 : ColorV := .idx 11
  color_fg3 : ColorV := .idx 1
  color_amoeba : ColorV := .idx 5
  color_slime : ColorV := .idx 6
  color_screen : ColorV := .idx 0
  color_border : ColorV := .idx 0
  maplines : List (List Char) := []

/-- Modelled from the spec: the parsed external catalog (`bdcff.BdcffParser`),
an ordered list of caves plus catalog metadata. -/
structure BdcffParser where
  name : String := ""
  author : String := ""
  date : String := ""
  www : String := ""
  caves : List BdcffCave := []

/-! ### The cave entity (`class Cave` of `caves.py`) -/

/-- The canonical cave entity.  Fields mirror `Cave.__init__` (plus the
`C64Cave` decoding fields `randomseed`, `random_objects`,
`random_probabilities`).  The numeric defaults reproduce the ones taken
from `bdcff.BdcffCave()`; their exact values are not fixed by the spec and
no claim depends on them. -/
structure Cave where
  index : Nat
  name : String := ""
  description : String := ""
  author : String := ""
  www : String := ""
  date : String := ""
  intermission : Bool := false
  width : Nat
  height : Nat
  map : List Cell := []
  magicwall_millingtime : Nat := 999
  amoeba_slowgrowthtime : Nat := 999
  diamondvalue_normal : Nat := 0
  diamondvalue_extra : Nat := 0
  diamonds_required : Nat := 0
  amoebafactor : Rat := 2273 / 10000
  slime_permeability : Rat := 1
  wraparound : Bool := false
  time : Nat := 999
  colors : Palette := Palette.default
  randomseed : Nat := 0
  random_objects : List Nat := []
  random_probabilities : List Nat := []

/-- The `map2` accumulation of `Cave.resize`: empty filler rows on top
(floor count), each original row padded left (floor) and right (ceiling),
empty filler rows at the bottom (ceiling count).  The Python
`map2.extend(...)` loop accumulation is written as a join of the extended
segments. -/
def resize_map2 (w h tw th : Nat) (m : List Cell) : List Cell :=
  let filler : List Cell := List.replicate tw (GameObject.EMPTY, Direction.NOWHERE)
  ((pythonRange 0 (pyHalfFloor ((th : Int) - (h : Int)))).map (fun _ => filler)).flatten
  ++ ((List.range h).map (fun y =>
        pySliceTo filler (pyHalfFloor ((tw : Int) - (w : Int)))
        ++ ((m.drop (y * w)).take w)
        ++ pySliceTo filler (pyHalfCeil ((tw : Int) - (w : Int))))).flatten
  ++ ((pythonRange 0 (pyHalfCeil ((th : Int) - (h : Int)))).map (fun _ => filler)).flatten

/-- `Cave.resize`: build a bigger map with the original placed in the
center (floor margins top/left, ceiling margins bottom/right), assert the
new size, commit. -/
def Cave.resize (cave : Cave) (target_width target_height : Nat) : Except String Cave :=
  let map2 := resize_map2 cave.width cave.height target_width target_height cave.map
  if map2.length = target_width * target_height then
    .ok { cave with width := target_width, height := target_height, map := map2 }
  else .error "AssertionError"

/-! ### The Boulder Dash pseudo random generator (`C64Cave.bdrandom`) -/

/-- `C64Cave.bdrandom`, as a pure step on the two-byte seed pair (the
Python routine mutates `seeds` in place). -/
def bdrandom (seeds : Nat × Nat) : Nat × Nat :=
  let tmp1 := (seeds.1 &&& 0x0001) * 0x0080
  let tmp2 := (seeds.2 >>> 1) &&& 0x007F
  let result := seeds.2 + (seeds.2 &&& 0x0001) * 0x0080
  let carry := if 0x00FF < result then 1 else 0
  let result := result &&& 0x00FF
  let result := result + carry + 0x13
  let carry := if 0x00FF < result then 1 else 0
  let seed1 := result &&& 0x00FF
  let result := seeds.1 + carry + tmp1
  let carry := if 0x00FF < result then 1 else 0
  let result := result &&& 0x00FF
  let result := result + carry + tmp2
  let seed0 := result &&& 0x00FF
  (seed0, seed1)

/-! ### Drawing primitives (`C64Cave.draw_single/draw_line/draw_rectangle`)
All take the cave width `w` (the Python methods read `self.width`) and the
flat code buffer `cm` (`self.codemap`), returning the updated buffer. -/

/-- `C64Cave.draw_single`: `self.codemap[x + y * self.width] = obj`. -/
def draw_single (w obj : Nat) (x y : Int) (cm : List Nat) : Except String (List Nat) :=
  pythonSet cm (x + y * (w : Int)) obj

/-- The fixed table of eight `(dx, dy)` unit vectors of `draw_line`. -/
def directionTable : List (Int × Int) :=
  [(0, -1), (1, -1), (1, 0), (1, 1), (0, 1), (-1, 1), (-1, 0), (-1, -1)]

/-- The `for _ in range(length)` loop body of `draw_line`. -/
def draw_line_steps (w obj : Nat) (dx dy : Int) : Nat → Int → Int → List Nat → Except String (List Nat)
  | 0, _, _, cm => .ok cm
  | k + 1, x, y, cm => do
      let cm ← draw_single w obj x y cm
      draw_line_steps w obj dx dy k (x + dx) (y + dy) cm

/-- `C64Cave.draw_line` (a negative `length` draws nothing, as Python
`range` does; an out-of-range `direction` raises). -/
def draw_line (w obj : Nat) (x y : Int) (length : Int) (direction : Int) (cm : List Nat) : Except String (List Nat) := do
  let d ← pythonGet directionTable direction
  draw_line_steps w obj d.1 d.2 length.toNat x y cm

/-- `C64Cave.draw_rectangle`: outline via four `draw_line` calls, then the
optional interior fill rows. -/
def draw_rectangle (w obj : Nat) (x1 y1 : Int) (width height : Nat) (fillobject : Option Nat) (cm : List Nat) : Except String (List Nat) := do
  let cm ← draw_line w obj x1 y1 (width : Int) 2 cm
  let cm ← draw_line w obj x1 (y1 + (height : Int) - 1) (width : Int) 2 cm
  let cm ← draw_line w obj x1 (y1 + 1) ((height : Int) - 2) 4 cm
  let cm ← draw_line w obj (x1 + (width : Int) - 1) (y1 + 1) ((height : Int) - 2) 4 cm
  match fillobject with
  | none => .ok cm
  | some fo =>
      (pythonRange (y1 + 1) (y1 + (height : Int) - 1)).foldlM
        (fun cm y => draw_line w fo (x1 + 1) y ((width : Int) - 2) 2 cm) cm

/-! ### `C64Cave.build_map` phase 1: the randomized background fill -/

/-- One cell of the randomized fill: advance the generator once, pick the
object by the `for randomobj, randomprob in zip(...)` loop (starting from
dirt `0x01`), draw it.  State is `(seeds, codemap)`. -/
def fill_cell (w : Nat) (ro rp : List Nat) (x y : Int) (st : (Nat × Nat) × List Nat) : Except String ((Nat × Nat) × List Nat) := do
  let seeds := bdrandom st.1
  let obj := (ro.zip rp).foldl (fun obj pr => if seeds.1 < pr.2 then pr.1 else obj) 0x01
  let cm ← draw_single w obj x y st.2
  .ok (seeds, cm)

/-- The `for y in range(1, height - 1): for x in range(0, width)` fill
loop, starting from `seeds = [0, randomseed]` and a zeroed
`bytearray(width * height)` code buffer. -/
def random_fill (w h : Nat) (ro rp : List Nat) (randomseed : Nat) : Except String ((Nat × Nat) × List Nat) :=
  (pythonRange 1 ((h : Int) - 1)).foldlM
    (fun st y => (pythonRange 0 (w : Int)).foldlM (fun st x => fill_cell w ro rp x y st) st)
    ((0, randomseed), List.replicate (w * h) 0)

/-- The complete phase 1 of `build_map`: randomized fill, then the
`draw_rectangle(0x07, 0, 0, width, height)` steel boundary. -/
def background (w h : Nat) (ro rp : List Nat) (randomseed : Nat) : Except String ((Nat × Nat) × List Nat) := do
  let st ← random_fill w h ro rp randomseed
  let cm ← draw_rectangle w 0x07 0 0 w h none st.2
  .ok (st.1, cm)

/-! ### `C64Cave.build_map` phase 2: the instruction-stream interpreter -/

/-- The `if kind == 0 ... elif ... else raise ValueError` dispatch chain of
the instruction loop, acting on the current buffer and stream position
(returns the updated buffer and the next position `n + 3/5/6`). -/
def dispatch_kind (w : Nat) (data : List Nat) (n : Nat) (cm : List Nat) (obj kind : Nat) (x y : Int) : Except String (List Nat × Nat) :=
  match kind with
  | 0 => do
      let cm ← draw_single w obj x y cm
      .ok (cm, n + 3)
  | 1 => do
      let length ← getByte data (n + 3)
      let direction ← getByte data (n + 4)
      let cm ← draw_line w obj x y (length : Int) (direction : Int) cm
      .ok (cm, n + 5)
  | 2 => do
      let width ← getByte data (n + 3)
      let height ← getByte data (n + 4)
      let fillobject ← getByte data (n + 5)
      let cm ← draw_rectangle w obj x y width height (some fillobject) cm
      .ok (cm, n + 6)
  | 3 => do
      let width ← getByte data (n + 3)
      let height ← getByte data (n + 4)
      let cm ← draw_rectangle w obj x y width height none cm
      .ok (cm, n + 5)
  | _ => .error "invalid cave instruction encountered"

/-- The `while n < len(data) and data[n] < 0xff` interpreter loop.  The
first argument is recursion fuel: each iteration moves `n` strictly
forward, so any fuel above `len(data)` makes the fuel-exhaustion branch
unreachable (`interpret_fuel_stable` below); `build_map` runs it with
`len(data) + 1`. -/
def interpret (w : Nat) (data : List Nat) : Nat → List Nat → Nat → Except String (List Nat)
  | 0, cm, _ => .ok cm
  | fuel + 1, cm, n =>
    if h : n < data.length then
      if data.get ⟨n, h⟩ < 0xff then
        match getByte data (n + 1), getByte data (n + 2) with
        | .ok x, .ok y0 =>
            match dispatch_kind w data n cm (data.get ⟨n, h⟩ &&& 0x3f)
                ((data.get ⟨n, h⟩ &&& 0xc0) >>> 6) (x : Int) ((y0 : Int) - 2) with
            | .ok r => interpret w data fuel r.1 r.2
            | .error e => .error e
        | .error e, _ => .error e
        | .ok _, .error e => .error e
      else .ok cm
    else .ok cm

/-! ### `C64Cave.build_map` phase 3: object-code translation -/

/-- The `conversion` dict of `build_map`: C64 cave map codes to
`(GameObject, Direction)` cells. -/
def conversion : List (Nat × Cell) := [
  (0x00, (.EMPTY, .NOWHERE)),
  (0x01, (.DIRT, .NOWHERE)),
  (0x02, (.BRICK, .NOWHERE)),
  (0x03, (.MAGICWALL, .NOWHERE)),
  (0x04, (.OUTBOXCLOSED, .NOWHERE)),
  (0x05, (.OUTBOXBLINKING, .NOWHERE)),
  (0x07, (.STEEL, .NOWHERE)),
  (0x08, (.FIREFLY, .LEFT)),
  (0x09, (.FIREFLY, .UP)),
  (0x0a, (.FIREFLY, .RIGHT)),
  (0x0b, (.FIREFLY, .DOWN)),
  (0x10, (.BOULDER, .NOWHERE)),
  (0x12, (.BOULDER, .NOWHERE)),
  (0x14, (.DIAMOND, .NOWHERE)),
  (0x16, (.DIAMOND, .NOWHERE)),
  (0x25, (.INBOXBLINKING, .NOWHERE)),
  (0x30, (.BUTTERFLY, .DOWN)),
  (0x31, (.BUTTERFLY, .LEFT)),
  (0x32, (.BUTTERFLY, .UP)),
  (0x33, (.BUTTERFLY, .RIGHT)),
  (0x38, (.ROCKFORD, .NOWHERE)),
  (0x3a, (.AMOEBA, .NOWHERE))]

/-- `self.map = [conversion[code] for code in self.codemap]` (a code with
no table entry raises `KeyError`). -/
def translate_codes (cm : List Nat) : Except String (List Cell) :=
  cm.mapM (fun code =>
    match conversion.lookup code with
    | some cell => .ok cell
    | none => .error "KeyError")

/-- `C64Cave.build_map`: randomized background with steel boundary, then
the instruction stream, then code translation. -/
def build_map (w h : Nat) (ro rp : List Nat) (randomseed : Nat) (data : List Nat) : Except String (List Cell) := do
  let bg ← background w h ro rp randomseed
  let cm ← interpret w data (data.length + 1) bg.2 0
  translate_codes cm

/-! ### The embedded binary catalog and `C64Cave.decode_from_lvl` -/

/-- The `BD1CAVES` static table: 20 `(name, description, byte-sequence)`
records of Boulder Dash I, transcribed from the source. -/
def BD1CAVES : List (String × String × List Nat) := [
  ("A - Intro",
   "Pick up jewels and exit before time is up.",
   [0x01, 0x14, 0x0a, 0x0f, 0x0a, 0x0b, 0x0c, 0x0d, 0x0e, 0x0c, 0x0c, 0x0c, 0x0c, 0x0c, 0x96, 0x6e, 0x46, 0x28,
    0x1e, 0x08, 0x0b, 0x09, 0xd4, 0x20, 0x00, 0x10, 0x14, 0x00, 0x3c, 0x32, 0x09, 0x00, 0x42, 0x01, 0x09, 0x1e,
    0x02, 0x42, 0x09, 0x10, 0x1e, 0x02, 0x25, 0x03, 0x04, 0x04, 0x26, 0x12, 0xff]),
  ("B - Rooms",
   "Pick up jewels, but you must move boulders to get all jewels.",
   [0x02, 0x14, 0x14, 0x32, 0x03, 0x00, 0x01, 0x57, 0x58, 0x0a, 0x0c, 0x09, 0x0d, 0x0a, 0x96, 0x6e, 0x46, 0x46,
    0x46, 0x0a, 0x04, 0x09, 0x00, 0x00, 0x00, 0x10, 0x14, 0x08, 0x3c, 0x32, 0x09, 0x02, 0x42, 0x01, 0x08, 0x26,
    0x02, 0x42, 0x01, 0x0f, 0x26, 0x02, 0x42, 0x08, 0x03, 0x14, 0x04, 0x42, 0x10, 0x03, 0x14, 0x04, 0x42, 0x18,
    0x03, 0x14, 0x04, 0x42, 0x20, 0x03, 0x14, 0x04, 0x40, 0x01, 0x05, 0x26, 0x02, 0x40, 0x01, 0x0b, 0x26, 0x02,
    0x40, 0x01, 0x12, 0x26, 0x02, 0x40, 0x14, 0x03, 0x14, 0x04, 0x25, 0x12, 0x15, 0x04, 0x12, 0x16, 0xff]),
  ("C - Maze",
   "Pick up jewels. You must get every jewel to exit.",
   [0x03, 0x00, 0x0f, 0x00, 0x00, 0x32, 0x36, 0x34, 0x37, 0x18, 0x17, 0x18, 0x17, 0x15, 0x96, 0x64, 0x5a, 0x50,
    0x46, 0x09, 0x08, 0x09, 0x04, 0x00, 0x02, 0x10, 0x14, 0x00, 0x64, 0x32, 0x09, 0x00, 0x25, 0x03, 0x04, 0x04,
    0x27, 0x14, 0xff]),
  ("D - Butterflies",
   "Drop boulders on butterflies to create jewels.",
   [0x04, 0x14, 0x05, 0x14, 0x00, 0x6e, 0x70, 0x73, 0x77, 0x24, 0x24, 0x24, 0x24, 0x24, 0x78, 0x64, 0x50, 0x3c,
    0x32, 0x04, 0x08, 0x09, 0x00, 0x00, 0x10, 0x00, 0x00, 0x00, 0x14, 0x00, 0x00, 0x00, 0x25, 0x01, 0x03, 0x04,
    0x26, 0x16, 0x81, 0x08, 0x0a, 0x04, 0x04, 0x00, 0x30, 0x0a, 0x0b, 0x81, 0x10, 0x0a, 0x04, 0x04, 0x00, 0x30,
    0x12, 0x0b, 0x81, 0x18, 0x0a, 0x04, 0x04, 0x00, 0x30, 0x1a, 0x0b, 0x81, 0x20, 0x0a, 0x04, 0x04, 0x00, 0x30,
    0x22, 0x0b, 0xff]),
  ("Intermission 1",
   "Bonus level!",
   [0x11, 0x14, 0x1e, 0x00, 0x0a, 0x0b, 0x0c, 0x0d, 0x0e, 0x06, 0x06, 0x06, 0x06, 0x06, 0x0a, 0x0a, 0x0a, 0x0a,
    0x0a, 0x0e, 0x02, 0x09, 0x00, 0x00, 0x00, 0x14, 0x00, 0x00, 0xff, 0x09, 0x00, 0x00, 0x87, 0x00, 0x02, 0x28,
    0x16, 0x07, 0x87, 0x00, 0x02, 0x14, 0x0c, 0x00, 0x32, 0x0a, 0x0c, 0x10, 0x0a, 0x04, 0x01, 0x0a, 0x05, 0x25,
    0x03, 0x05, 0x04, 0x12, 0x0c, 0xff]),
  ("E - Guards",
   "The jewels are there for grabbing, but they are guarded by the deadly fireflies.",
   [0x05, 0x14, 0x32, 0x5a, 0x00, 0x00, 0x00, 0x00, 0x00, 0x04, 0x05, 0x06, 0x07, 0x08, 0x96, 0x78, 0x5a, 0x3c,
    0x1e, 0x09, 0x0a, 0x09, 0x00, 0x00, 0x00, 0x00, 0x00, 0x00, 0x00, 0x00, 0x00, 0x00, 0x25, 0x01, 0x03, 0x04,
    0x27, 0x16, 0x80, 0x08, 0x0a, 0x03, 0x03, 0x00, 0x80, 0x10, 0x0a, 0x03, 0x03, 0x00, 0x80, 0x18, 0x0a, 0x03,
    0x03, 0x00, 0x80, 0x20, 0x0a, 0x03, 0x03, 0x00, 0x14, 0x09, 0x0c, 0x08, 0x0a, 0x0a, 0x14, 0x11, 0x0c, 0x08,
    0x12, 0x0a, 0x14, 0x19, 0x0c, 0x08, 0x1a, 0x0a, 0x14, 0x21, 0x0c, 0x08, 0x22, 0x0a, 0x80, 0x08, 0x10, 0x03,
    0x03, 0x00, 0x80, 0x10, 0x10, 0x03, 0x03, 0x00, 0x80, 0x18, 0x10, 0x03, 0x03, 0x00, 0x80, 0x20, 0x10, 0x03,
    0x03, 0x00, 0x14, 0x09, 0x12, 0x08, 0x0a, 0x10, 0x14, 0x11, 0x12, 0x08, 0x12, 0x10, 0x14, 0x19, 0x12, 0x08,
    0x1a, 0x10, 0x14, 0x21, 0x12, 0x08, 0x22, 0x10, 0xff]),
  ("F - Firefly dens",
   "Each firefly is guarding a jewel.",
   [0x06, 0x14, 0x28, 0x3c, 0x00, 0x14, 0x15, 0x16, 0x17, 0x04, 0x06, 0x07, 0x08, 0x08, 0x96, 0x78, 0x64, 0x5a,
    0x50, 0x0e, 0x0a, 0x09, 0x00, 0x00, 0x10, 0x00, 0x00, 0x00, 0x32, 0x00, 0x00, 0x00, 0x82, 0x01, 0x03, 0x0a,
    0x04, 0x00, 0x82, 0x01, 0x06, 0x0a, 0x04, 0x00, 0x82, 0x01, 0x09, 0x0a, 0x04, 0x00, 0x82, 0x01, 0x0c, 0x0a,
    0x04, 0x00, 0x41, 0x0a, 0x03, 0x0d, 0x04, 0x14, 0x03, 0x05, 0x08, 0x04, 0x05, 0x14, 0x03, 0x08, 0x08, 0x04,
    0x08, 0x14, 0x03, 0x0b, 0x08, 0x04, 0x0b, 0x14, 0x03, 0x0e, 0x08, 0x04, 0x0e, 0x82, 0x1d, 0x03, 0x0a, 0x04,
    0x00, 0x82, 0x1d, 0x06, 0x0a, 0x04, 0x00, 0x82, 0x1d, 0x09, 0x0a, 0x04, 0x00, 0x82, 0x1d, 0x0c, 0x0a, 0x04,
    0x00, 0x41, 0x1d, 0x03, 0x0d, 0x04, 0x14, 0x24, 0x05, 0x08, 0x23, 0x05, 0x14, 0x24, 0x08, 0x08, 0x23, 0x08,
    0x14, 0x24, 0x0b, 0x08, 0x23, 0x0b, 0x14, 0x24, 0x0e, 0x08, 0x23, 0x0e, 0x25, 0x03, 0x14, 0x04, 0x26, 0x14,
    0xff]),
  ("G - Amoeba",
   "Surround the amoeba with boulders. Pick up jewels when it suffocates.",
   [0x07, 0x4b, 0x0a, 0x14, 0x02, 0x07, 0x08, 0x0a, 0x09, 0x0f, 0x14, 0x19, 0x19, 0x19, 0x78, 0x78, 0x78, 0x78,
    0x78, 0x09, 0x0a, 0x0d, 0x00, 0x00, 0x00, 0x10, 0x08, 0x00, 0x64, 0x28, 0x02, 0x00, 0x42, 0x01, 0x07, 0x0c,
    0x02, 0x42, 0x1c, 0x05, 0x0b, 0x02, 0x7a, 0x13, 0x15, 0x02, 0x02, 0x14, 0x04, 0x06, 0x14, 0x04, 0x0e, 0x14,
    0x04, 0x16, 0x14, 0x22, 0x04, 0x14, 0x22, 0x0c, 0x14, 0x22, 0x16, 0x25, 0x14, 0x03, 0x04, 0x27, 0x07, 0xff]),
  ("H - Enchanted wall",
   "Activate the enchanted wall and create as many jewels as you can.",
   [0x08, 0x14, 0x0a, 0x14, 0x01, 0x03, 0x04, 0x05, 0x06, 0x0a, 0x0f, 0x14, 0x14, 0x14, 0x78, 0x6e, 0x64, 0x5a,
    0x50, 0x02, 0x0e, 0x09, 0x00, 0x00, 0x00, 0x10, 0x08, 0x00, 0x5a, 0x32, 0x02, 0x00, 0x14, 0x04, 0x06, 0x14,
    0x22, 0x04, 0x14, 0x22, 0x0c, 0x04, 0x00, 0x05, 0x25, 0x14, 0x03, 0x42, 0x01, 0x07, 0x0c, 0x02, 0x42, 0x01,
    0x0f, 0x0c, 0x02, 0x42, 0x1c, 0x05, 0x0b, 0x02, 0x42, 0x1c, 0x0d, 0x0b, 0x02, 0x43, 0x0e, 0x11, 0x08, 0x02,
    0x14, 0x0c, 0x10, 0x00, 0x0e, 0x12, 0x14, 0x13, 0x12, 0x41, 0x0e, 0x0f, 0x08, 0x02, 0xff]),
  ("Intermission 2",
   "Bonus level!",
   [0x12, 0x14, 0x0a, 0x00, 0x0a, 0x0b, 0x0c, 0x0d, 0x0e, 0x10, 0x10, 0x10, 0x10, 0x10, 0x0f, 0x0f, 0x0f, 0x0f,
    0x0f, 0x06, 0x0f, 0x09, 0x00, 0x00, 0x00, 0x00, 0x00, 0x00, 0x00, 0x00, 0x00, 0x00, 0x87, 0x00, 0x02, 0x28,
    0x16, 0x07, 0x87, 0x00, 0x02, 0x14, 0x0c, 0x01, 0x50, 0x01, 0x03, 0x09, 0x03, 0x48, 0x02, 0x03, 0x08, 0x03,
    0x54, 0x01, 0x05, 0x08, 0x03, 0x50, 0x01, 0x06, 0x07, 0x03, 0x50, 0x12, 0x03, 0x09, 0x05, 0x54, 0x12, 0x05,
    0x08, 0x05, 0x50, 0x12, 0x06, 0x07, 0x05, 0x25, 0x01, 0x04, 0x04, 0x12, 0x04, 0xff]),
  ("I - Greed",
   "You have to get a lot of jewels here, lucky there are so many.",
   [0x09, 0x14, 0x05, 0x0a, 0x64, 0x89, 0x8c, 0xfb, 0x33, 0x4b, 0x4b, 0x50, 0x55, 0x5a, 0x96, 0x96, 0x82, 0x82,
    0x78, 0x08, 0x04, 0x09, 0x00, 0x00, 0x10, 0x14, 0x00, 0x00, 0xf0, 0x78, 0x00, 0x00, 0x82, 0x05, 0x0a, 0x0d,
    0x0d, 0x00, 0x01, 0x0c, 0x0a, 0x82, 0x19, 0x0a, 0x0d, 0x0d, 0x00, 0x01, 0x1f, 0x0a, 0x42, 0x11, 0x12, 0x09,
    0x02, 0x40, 0x11, 0x13, 0x09, 0x02, 0x25, 0x07, 0x0c, 0x04, 0x08, 0x0c, 0xff]),
  ("J - Tracks",
   "Get the jewels, avoid the fireflies.",
   [0x0a, 0x14, 0x19, 0x3c, 0x00, 0x00, 0x00, 0x00, 0x00, 0x0c, 0x0c, 0x0c, 0x0c, 0x0c, 0x96, 0x82, 0x78, 0x6e,
    0x64, 0x06, 0x08, 0x09, 0x00, 0x00, 0x00, 0x00, 0x00, 0x00, 0x00, 0x00, 0x00, 0x00, 0x25, 0x0d, 0x03, 0x04,
    0x27, 0x16, 0x54, 0x05, 0x04, 0x11, 0x03, 0x54, 0x15, 0x04, 0x11, 0x05, 0x80, 0x05, 0x0b, 0x11, 0x03, 0x08,
    0xc2, 0x01, 0x04, 0x15, 0x11, 0x00, 0x0d, 0x04, 0xc2, 0x07, 0x06, 0x0d, 0x0d, 0x00, 0x0d, 0x06, 0xc2, 0x09,
    0x08, 0x09, 0x09, 0x00, 0x0d, 0x08, 0xc2, 0x0b, 0x0a, 0x05, 0x05, 0x00, 0x0d, 0x0a, 0x82, 0x03, 0x06, 0x03,
    0x0f, 0x08, 0x00, 0x04, 0x06, 0x54, 0x04, 0x10, 0x04, 0x04, 0xff]),
  ("K - Crowd",
   "You must move a lot of boulders around in some tight spaces.",
   [0x0b, 0x14, 0x32, 0x00, 0x00, 0x04, 0x66, 0x97, 0x64, 0x06, 0x06, 0x06, 0x06, 0x06, 0x78, 0x78, 0x96, 0x96,
    0xf0, 0x0b, 0x08, 0x09, 0x00, 0x00, 0x00, 0x10, 0x08, 0x00, 0x64, 0x50, 0x02, 0x00, 0x42, 0x0a, 0x03, 0x09,
    0x04, 0x42, 0x14, 0x03, 0x09, 0x04, 0x42, 0x1e, 0x03, 0x09, 0x04, 0x42, 0x09, 0x16, 0x09, 0x00, 0x42, 0x0c,
    0x0f, 0x11, 0x02, 0x42, 0x05, 0x0b, 0x09, 0x02, 0x42, 0x0f, 0x0b, 0x09, 0x02, 0x42, 0x19, 0x0b, 0x09, 0x02,
    0x42, 0x1c, 0x13, 0x0b, 0x01, 0x14, 0x04, 0x03, 0x14, 0x0e, 0x03, 0x14, 0x18, 0x03, 0x14, 0x22, 0x03, 0x14,
    0x04, 0x16, 0x14, 0x23, 0x15, 0x25, 0x14, 0x14, 0x04, 0x26, 0x11, 0xff]),
  ("L - Walls",
   "Drop a boulder on a firefly at the right time to blast through walls.",
   [0x0c, 0x14, 0x14, 0x00, 0x00, 0x3c, 0x02, 0x3b, 0x66, 0x13, 0x13, 0x0e, 0x10, 0x15, 0xb4, 0xaa, 0xa0, 0xa0,
    0xa0, 0x0c, 0x0a, 0x09, 0x00, 0x00, 0x00, 0x10, 0x14, 0x00, 0x3c, 0x32, 0x09, 0x00, 0x42, 0x0a, 0x05, 0x12,
    0x04, 0x42, 0x0e, 0x05, 0x12, 0x04, 0x42, 0x12, 0x05, 0x12, 0x04, 0x42, 0x16, 0x05, 0x12, 0x04, 0x42, 0x02,
    0x06, 0x0b, 0x02, 0x42, 0x02, 0x0a, 0x0b, 0x02, 0x42, 0x02, 0x0e, 0x0f, 0x02, 0x42, 0x02, 0x12, 0x0b, 0x02,
    0x81, 0x1e, 0x04, 0x04, 0x04, 0x00, 0x08, 0x20, 0x05, 0x81, 0x1e, 0x09, 0x04, 0x04, 0x00, 0x08, 0x20, 0x0a,
    0x81, 0x1e, 0x0e, 0x04, 0x04, 0x00, 0x08, 0x20, 0x0f, 0x25, 0x03, 0x14, 0x04, 0x27, 0x16, 0xff]),
  ("Intermission 3",
   "Bonus level!",
   [0x13, 0x04, 0x0a, 0x00, 0x0a, 0x0b, 0x0c, 0x0d, 0x0e, 0x0e, 0x0e, 0x0e, 0x0e, 0x0e, 0x14, 0x14, 0x14, 0x14,
    0x14, 0x06, 0x08, 0x09, 0x00, 0x00, 0x00, 0x00, 0x00, 0x00, 0x00, 0x00, 0x00, 0x00, 0x87, 0x00, 0x02, 0x28,
    0x16, 0x07, 0x87, 0x00, 0x02, 0x14, 0x0c, 0x00, 0x54, 0x01, 0x0c, 0x12, 0x02, 0x88, 0x0f, 0x09, 0x04, 0x04,
    0x08, 0x25, 0x08, 0x03, 0x04, 0x12, 0x07, 0xff]),
  ("M - Apocalypse",
   "Bring the butterflies and amoeba together and watch the jewels fly.",
   [0x0d, 0x8c, 0x05, 0x08, 0x00, 0x01, 0x02, 0x03, 0x04, 0x32, 0x37, 0x3c, 0x46, 0x50, 0xa0, 0x9b, 0x96, 0x91,
    0x8c, 0x06, 0x08, 0x0d, 0x00, 0x00, 0x10, 0x00, 0x00, 0x00, 0x28, 0x00, 0x00, 0x00, 0x25, 0x12, 0x03, 0x04,
    0x0a, 0x03, 0x3a, 0x14, 0x03, 0x42, 0x05, 0x12, 0x1e, 0x02, 0x70, 0x05, 0x13, 0x1e, 0x02, 0x50, 0x05, 0x14,
    0x1e, 0x02, 0xc1, 0x05, 0x15, 0x1e, 0x02, 0xff]),
  ("N - Zigzag",
   "Magically transform the butterflies into jewels, but don't waste any boulders.",
   [0x0e, 0x14, 0x0a, 0x14, 0x00, 0x00, 0x00, 0x00, 0x00, 0x1e, 0x23, 0x28, 0x2a, 0x2d, 0x96, 0x91, 0x8c, 0x87,
    0x82, 0x0c, 0x08, 0x09, 0x00, 0x00, 0x10, 0x00, 0x00, 0x00, 0x00, 0x00, 0x00, 0x00, 0x81, 0x0a, 0x0a, 0x0d,
    0x0d, 0x00, 0x70, 0x0b, 0x0b, 0x0c, 0x03, 0xc1, 0x0c, 0x0a, 0x03, 0x0d, 0xc1, 0x10, 0x0a, 0x03, 0x0d, 0xc1,
    0x14, 0x0a, 0x03, 0x0d, 0x50, 0x16, 0x08, 0x0c, 0x02, 0x48, 0x16, 0x07, 0x0c, 0x02, 0xc1, 0x17, 0x06, 0x03,
    0x04, 0xc1, 0x1b, 0x06, 0x03, 0x04, 0xc1, 0x1f, 0x06, 0x03, 0x04, 0x25, 0x03, 0x03, 0x04, 0x27, 0x14, 0xff]),
  ("O - Funnel",
   "There is an enchanted wall at the bottom of the rock tunnel.",
   [0x0f, 0x08, 0x0a, 0x14, 0x01, 0x1d, 0x1e, 0x1f, 0x20, 0x0f, 0x14, 0x14, 0x19, 0x1e, 0x78, 0x78, 0x78, 0x78,
    0x8c, 0x08, 0x0e, 0x09, 0x00, 0x00, 0x00, 0x10, 0x08, 0x00, 0x64, 0x50, 0x02, 0x00, 0x42, 0x02, 0x04, 0x0a,
    0x03, 0x42, 0x0f, 0x0d, 0x0a, 0x01, 0x41, 0x0c, 0x0e, 0x03, 0x02, 0x43, 0x0c, 0x0f, 0x03, 0x02, 0x04, 0x14,
    0x16, 0x25, 0x14, 0x03, 0xff]),
  ("P - Enchanted boxes",
   "The top of each room is an enchanted wall, but you'll have to blast your way inside.",
   [0x10, 0x14, 0x0a, 0x14, 0x01, 0x78, 0x81, 0x7e, 0x7b, 0x0c, 0x0f, 0x0f, 0x0f, 0x0c, 0x96, 0x96, 0x96, 0x96,
    0x96, 0x09, 0x0a, 0x09, 0x00, 0x00, 0x10, 0x00, 0x00, 0x00, 0x32, 0x00, 0x00, 0x00, 0x25, 0x01, 0x03, 0x04,
    0x27, 0x04, 0x81, 0x08, 0x13, 0x04, 0x04, 0x00, 0x08, 0x0a, 0x14, 0xc2, 0x07, 0x0a, 0x06, 0x08, 0x43, 0x07,
    0x0a, 0x06, 0x02, 0x81, 0x10, 0x13, 0x04, 0x04, 0x00, 0x08, 0x12, 0x14, 0xc2, 0x0f, 0x0a, 0x06, 0x08, 0x43,
    0x0f, 0x0a, 0x06, 0x02, 0x81, 0x18, 0x13, 0x04, 0x04, 0x00, 0x08, 0x1a, 0x14, 0x81, 0x20, 0x13, 0x04, 0x04,
    0x00, 0x08, 0x22, 0x14, 0xff]),
  ("Intermission 4",
   "Bonus level!",
   [0x14, 0x03, 0x1e, 0x00, 0x00, 0x00, 0x00, 0x00, 0x00, 0x06, 0x06, 0x06, 0x06, 0x06, 0x14, 0x14, 0x14, 0x14,
    0x14, 0x06, 0x08, 0x09, 0x00, 0x00, 0x00, 0x00, 0x00, 0x00, 0x00, 0x00, 0x00, 0x00, 0x87, 0x00, 0x02, 0x28,
    0x16, 0x07, 0x87, 0x00, 0x02, 0x14, 0x0c, 0x01, 0xd0, 0x0b, 0x03, 0x03, 0x02, 0x80, 0x0b, 0x07, 0x03, 0x06,
    0x00, 0x43, 0x0b, 0x06, 0x03, 0x02, 0x43, 0x0b, 0x0a, 0x03, 0x02, 0x50, 0x08, 0x07, 0x03, 0x03, 0x25, 0x03,
    0x03, 0x04, 0x09, 0x0a, 0xff])
]

/-- The `CAVE_A_DEMO` movement data table. -/
def CAVE_A_DEMO : List Nat := [
  0x4f, 0x1e, 0x77, 0x2d, 0x97, 0x4f, 0x2d, 0x47, 0x3e, 0x1b, 0x4f, 0x1e, 0xb7, 0x1d, 0x27,
  0x4f, 0x6d, 0x17, 0x4d, 0x3b, 0x4f, 0x1d, 0x1b, 0x47, 0x3b, 0x4f, 0x4e, 0x5b, 0x3e, 0x5b, 0x4d,
  0x3b, 0x5f, 0x3e, 0xab, 0x1e, 0x3b, 0x1d, 0x6b, 0x4d, 0x17, 0x4f, 0x3d, 0x47, 0x4d, 0x4b, 0x2e,
  0x27, 0x3e, 0xa7, 0xa7, 0x1d, 0x47, 0x1d, 0x47, 0x2d, 0x5f, 0x57, 0x4e, 0x57, 0x6f, 0x1d, 0x00]

/-- The `if any(m[0] == objects.AMOEBA for m in cave.map)` post-process at
the end of `decode_from_lvl`: override the third foreground color slot
with the amoeba color when the translated map contains an amoeba cell. -/
def amoeba_color_post (cave : Cave) : Cave :=
  if cave.map.any (fun m => m.1 == GameObject.AMOEBA) then
    { cave with colors := { cave.colors with fg3 := cave.colors.amoeba } }
  else cave

/-- `C64Cave.decode_from_lvl`: select the record (the leading `assert`
bounds check is the guard), read the fixed-offset header fields, build the
40 x 22 map from the instruction stream at offset `0x20`, then apply the
amoeba color post-process. -/
def decode_from_lvl (levelnumber : Nat) : Except String Cave :=
  if h : 0 < levelnumber ∧ levelnumber ≤ BD1CAVES.length then do
    let entry := BD1CAVES.get ⟨levelnumber - 1, by omega⟩
    let name := entry.1
    let description := entry.2.1
    let data := entry.2.2
    let index ← getByte data 0x00
    let d01 ← getByte data 0x01
    let d02 ← getByte data 0x02
    let d03 ← getByte data 0x03
    let d04 ← getByte data 0x04
    let d09 ← getByte data 0x09
    let d0e ← getByte data 0x0e
    let d13 ← getByte data 0x13
    let d14 ← getByte data 0x14
    let d15 ← getByte data 0x15
    let d18 ← getByte data 0x18
    let d19 ← getByte data 0x19
    let d1a ← getByte data 0x1a
    let d1b ← getByte data 0x1b
    let d1c ← getByte data 0x1c
    let d1d ← getByte data 0x1d
    let d1e ← getByte data 0x1e
    let d1f ← getByte data 0x1f
    let colors ← Palette.init (.idx (d13 : Int)) (.idx (d14 : Int)) (.idx 1) (.idx (d15 : Int))
        (.idx 6) (.idx 0) (.idx 0)
    let themap ← build_map 40 22 [d18, d19, d1a, d1b] [d1c, d1d, d1e, d1f] d04 (data.drop 0x20)
    let cave : Cave := {
      index := index, name := name, description := description,
      intermission := name.toLower.startsWith "intermission",
      width := 40, height := 22, map := themap,
      magicwall_millingtime := d01, amoeba_slowgrowthtime := d01,
      diamondvalue_normal := d02, diamondvalue_extra := d03,
      randomseed := d04, diamonds_required := d09, time := d0e,
      colors := colors,
      random_objects := [d18, d19, d1a, d1b],
      random_probabilities := [d1c, d1d, d1e, d1f],
      amoebafactor := 2273 / 10000 }
    .ok (amoeba_color_post cave)
  else .error "AssertionError: invalid level number"

/-! ### The structured-text symbol table and the cave set catalog -/

/-- The `BDCFFOBJECTS` dict: single printable symbols to
`(GameObject, Direction)` cells. -/
def BDCFFOBJECTS : List (Char × Cell) := [
  ('.', (.DIRT, .NOWHERE)),
  (' ', (.EMPTY, .NOWHERE)),
  ('w', (.BRICK, .NOWHERE)),
  ('M', (.MAGICWALL, .NOWHERE)),
  ('x', (.HEXPANDINGWALL, .NOWHERE)),
  ('v', (.VEXPANDINGWALL, .NOWHERE)),
  ('H', (.OUTBOXHIDDEN, .NOWHERE)),
  ('X', (.OUTBOXCLOSED, .NOWHERE)),
  ('W', (.STEEL, .NOWHERE)),
  ('Q', (.FIREFLY, .LEFT)),
  ('q', (.FIREFLY, .RIGHT)),
  ('O', (.FIREFLY, .UP)),
  ('o', (.FIREFLY, .DOWN)),
  ('c', (.BUTTERFLY, .DOWN)),
  ('C', (.BUTTERFLY, .LEFT)),
  ('b', (.BUTTERFLY, .UP)),
  ('B', (.BUTTERFLY, .RIGHT)),
  ('r', (.BOULDER, .NOWHERE)),
  ('d', (.DIAMOND, .NOWHERE)),
  ('P', (.INBOXBLINKING, .NOWHERE)),
  ('a', (.AMOEBA, .NOWHERE)),
  ('F', (.VOODOO, .NOWHERE)),
  ('s', (.SLIME, .NOWHERE))]

/-- `CaveSet.cave_from_bdcff`: build a `Cave` by direct field assignment
from the parsed structured-text record, translating the symbol map through
`BDCFFOBJECTS` (an unknown symbol raises `KeyError`).  The custom
`caveclass` hook is not modelled (default `Cave` path). -/
def cave_from_bdcff (parser : BdcffParser) (levelnumber : Nat) (bdcff : BdcffCave) : Except String Cave := do
  let themap ← (bdcff.maplines.flatten).mapM (fun ch =>
    match BDCFFOBJECTS.lookup ch with
    | some cell => Except.ok cell
    | none => Except.error "KeyError")
  .ok {
    index := levelnumber, name := bdcff.name, description := bdcff.description,
    width := bdcff.width, height := bdcff.height,
    www := parser.www, author := parser.author, date := parser.date,
    intermission := bdcff.intermission, wraparound := bdcff.wraparound,
    magicwall_millingtime := bdcff.magicwalltime,
    amoeba_slowgrowthtime := bdcff.amoebatime,
    diamondvalue_normal := bdcff.diamondvalue_normal,
    diamondvalue_extra := bdcff.diamondvalue_extra,
    diamonds_required := bdcff.diamonds_required,
    amoebafactor := bdcff.amoebafactor,
    time := bdcff.cavetime,
    slime_permeability := bdcff.slimepermeability,
    colors := {
      fg1 := bdcff.color_fg1, fg2 := bdcff.color_fg2, fg3 := bdcff.color_fg3,
      amoeba := bdcff.color_amoeba, slime := bdcff.color_slime,
      screen := match bdcff.color_screen with
        | .idx n => .idx (if 0 ≤ n then n else 0)
        | .lit s => .lit s,
      border := match bdcff.color_border with
        | .idx n => .idx (if 0 ≤ n then n else 0)
        | .lit s => .lit s },
    map := themap }

/-- `class CaveSet` state after `__init__` (the custom `caveclass`
argument is not modelled; in builtin mode the parser field is never read,
mirroring the attribute that Python never sets). -/
structure CaveSet where
  mode : String
  name : String
  author : String
  date : String
  cave_demo : Option (List Nat)
  num_caves : Nat
  bdcff_caves : BdcffParser

/-- `CaveSet.__init__` with an external structured-text file (already
parsed) or without one (builtin catalog). -/
def CaveSet.init (external_bdcff : Option BdcffParser) : CaveSet :=
  match external_bdcff with
  | some p =>
      { mode := "bdcff", name := p.name, author := p.author, date := p.date,
        cave_demo := none, num_caves := p.caves.length, bdcff_caves := p }
  | none =>
      { mode := "builtin", name := "Boulder Dash I", author := "Peter Liepa", date := "1984",
        cave_demo := some CAVE_A_DEMO, num_caves := BD1CAVES.length,
        bdcff_caves := {} }

/-- `CaveSet.cave(levelnumber)`: builtin mode decodes from the embedded
table (whose leading assert is the bounds check); bdcff mode indexes
`caves[levelnumber - 1]` with Python list semantics and converts. -/
def CaveSet.cave (cs : CaveSet) (levelnumber : Nat) : Except String Cave :=
  if cs.mode = "builtin" then
    decode_from_lvl levelnumber
  else if cs.mode = "bdcff" then do
    let bdcffcave ← pythonGet cs.bdcff_caves.caves ((levelnumber : Int) - 1)
    cave_from_bdcff cs.bdcff_caves levelnumber bdcffcave
  else .error "invalid caveset mode"

deriving instance DecidableEq for Except

/-- The one-cave structured-text catalog used to exhibit the indexing
behavior of bdcff mode (a minimal valid 2 x 2 all-steel cave). -/
def bdcff_test_catalog : BdcffParser :=
  { name := "test", author := "tester", date := "2024",
    caves := [{ name := "only cave", width := 2, height := 2,
                maplines := [['W', 'W'], ['W', 'W']] }] }

/-! ### C3: the instruction interpreter parses and dispatches exactly the
four fixed-size instruction forms.  `Instr`, `parseInstrs` and
`execInstrs` are the claim-side description: instructions are parsed from
the stream (first byte = object code in the low 6 bits, kind in the top 2
bits; y operand adjusted down by 2; kinds 0/1/2/3 consuming 3/5/6/5 bytes,
stopping at a byte >= 0xFF or stream end), then each is dispatched to its
drawing primitive.  The refinement theorem proves the interpreter loop
equals parse-then-execute. -/

/-- The instruction forms of the stream, as the spec describes them. -/
inductive Instr where
  | point (obj x : Nat) (y : Int)
  | line (obj x : Nat) (y : Int) (length direction : Nat)
  | rectFill (obj x : Nat) (y : Int) (width height fillcode : Nat)
  | rectOutline (obj x : Nat) (y : Int) (width height : Nat)
  deriving DecidableEq, Repr

/-- Claim-side parser of the instruction stream (same fuel discipline as
`interpret`): stop on a byte >= 0xFF or exhausted input; split the first
byte into object code (low 6 bits) and kind (top 2 bits); read the absolute
x byte and the y byte adjusted down by 2; then the kind-specific operands:
kind 0 consumes 3 bytes, kind 1 five (+length, +direction), kind 2 six
(+width, +height, +fillcode), kind 3 five (+width, +height). -/
def parseInstrs (data : List Nat) : Nat → Nat → Except String (List Instr)
  | 0, _ => .ok []
  | fuel + 1, n =>
    if h : n < data.length then
      if data.get ⟨n, h⟩ < 0xff then do
        let x ← getByte data (n + 1)
        let y0 ← getByte data (n + 2)
        match (data.get ⟨n, h⟩ &&& 0xc0) >>> 6 with
        | 0 => do
            let rest ← parseInstrs data fuel (n + 3)
            .ok (.point (data.get ⟨n, h⟩ &&& 0x3f) x ((y0 : Int) - 2) :: rest)
        | 1 => do
            let length ← getByte data (n + 3)
            let direction ← getByte data (n + 4)
            let rest ← parseInstrs data fuel (n + 5)
            .ok (.line (data.get ⟨n, h⟩ &&& 0x3f) x ((y0 : Int) - 2) length direction :: rest)
        | 2 => do
            let width ← getByte data (n + 3)
            let height ← getByte data (n + 4)
            let fillcode ← getByte data (n + 5)
            .ok (.rectFill (data.get ⟨n, h⟩ &&& 0x3f) x ((y0 : Int) - 2) width height fillcode
              :: (← parseInstrs data fuel (n + 6)))
        | 3 => do
            let width ← getByte data (n + 3)
            let height ← getByte data (n + 4)
            let rest ← parseInstrs data fuel (n + 5)
            .ok (.rectOutline (data.get ⟨n, h⟩ &&& 0x3f) x ((y0 : Int) - 2) width height :: rest)
        | _ => .error "unrecognized instruction kind"
      else .ok []
    else .ok []

/-- Dispatch one parsed instruction to its drawing primitive. -/
def execInstr (w : Nat) (cm : List Nat) : Instr → Except String (List Nat)
  | .point obj x y => draw_single w obj (x : Int) y cm
  | .line obj x y length direction =>
      draw_line w obj (x : Int) y (length : Int) (direction : Int) cm
  | .rectFill obj x y width height fillcode =>
      draw_rectangle w obj (x : Int) y width height (some fillcode) cm
  | .rectOutline obj x y width height =>
      draw_rectangle w obj (x : Int) y width height none cm

/-- Execute a parsed instruction list in order. -/
def execInstrs (w : Nat) : List Instr → List Nat → Except String (List Nat)
  | [], cm => .ok cm
  | i :: rest, cm => do
      let cm2 ← execInstr w cm i
      execInstrs w rest cm2

/-! ### C2: the randomized background fill with steel boundary -/

/-- Claim-side description of the random object choice: the object of the
last `(object, probability)` pair whose probability strictly exceeds the
first generator byte, defaulting to dirt `0x01`. -/
def last_random_match (ro rp : List Nat) (s0 : Nat) : Nat :=
  (((ro.zip rp).filter (fun pr => s0 < pr.2)).getLast?).elim 0x01 Prod.fst

/-- The fg3 slot of a decode result is the amoeba color exactly when the
translated map contains an amoeba cell, and the initial white (palette
index 1) otherwise. -/
def fg3_matches_amoeba : Except String Cave → Prop
  | .error _ => True
  | .ok c =>
      c.colors.fg3 =
        (if c.map.any (fun m => m.1 == GameObject.AMOEBA) then c.colors.amoeba
         else ColorV.idx 1)

/-- The concrete 10 x 8 all-dirt cave of the C6 witness. -/
def cave10x8 : Cave :=
  { index := 1, width := 10, height := 8,
    map := List.replicate 80 ((GameObject.DIRT, Direction.NOWHERE) : Cell) }

/-! ### C10: a verified fast evaluator for whole-cave decoding

Evaluating `decode_from_lvl` in the kernel over the `List Nat` code buffer
is infeasible (hundreds of `List.set` traversals of an 880-cell list per
cave).  This section refines the buffer into a single natural number whose
base-256 digits (little-endian) are the buffer bytes, so that every buffer
update becomes bignum arithmetic, and proves that the refined decoder
reaches the `.ok` verdict only when `decode_from_lvl` does.  The refined
functions mirror the originals statement by statement; the bridge theorems
relate them by structural induction. -/

/-- The base-256 little-endian encoding of a byte buffer. -/
def encodeBuf : List Nat → Nat
  | [] => 0
  | c :: t => c + 256 * encodeBuf t

/-- Replacement of the digit at position `j` of `n` (base 256) by `v`. -/
def setDigit (n j v : Nat) : Nat :=
  n % 256 ^ j + v * 256 ^ j + n / 256 ^ (j + 1) * 256 ^ (j + 1)

/-- `pythonSet` on the encoded buffer; `L` carries the buffer length. -/
def fastSet (L buf : Nat) (i : Int) (v : Nat) : Except String Nat :=
  if 255 < v then .error "ValueError: byte must be in range(0, 256)"
  else if 0 ≤ i ∧ i < (L : Int) then .ok (setDigit buf i.toNat v)
  else if -(L : Int) ≤ i ∧ i < 0 then .ok (setDigit buf ((L : Int) + i).toNat v)
  else .error "IndexError: bytearray index out of range"

/-- `draw_single` on the encoded buffer. -/
def fast_draw_single (L w obj : Nat) (x y : Int) (buf : Nat) : Except String Nat :=
  fastSet L buf (x + y * (w : Int)) obj

/-- `draw_line_steps` on the encoded buffer. -/
def fast_draw_line_steps (L w obj : Nat) (dx dy : Int) : Nat → Int → Int → Nat → Except String Nat
  | 0, _, _, buf => .ok buf
  | k + 1, x, y, buf => do
      let buf ← fast_draw_single L w obj x y buf
      fast_draw_line_steps L w obj dx dy k (x + dx) (y + dy) buf

/-- `draw_line` on the encoded buffer. -/
def fast_draw_line (L w obj : Nat) (x y : Int) (length direction : Int) (buf : Nat) : Except String Nat := do
  let d ← pythonGet directionTable direction
  fast_draw_line_steps L w obj d.1 d.2 length.toNat x y buf

/-- `draw_rectangle` on the encoded buffer. -/
def fast_draw_rectangle (L w obj : Nat) (x1 y1 : Int) (width height : Nat) (fillobject : Option Nat) (buf : Nat) : Except String Nat := do
  let buf ← fast_draw_line L w obj x1 y1 (width : Int) 2 buf
  let buf ← fast_draw_line L w obj x1 (y1 + (height : Int) - 1) (width : Int) 2 buf
  let buf ← fast_draw_line L w obj x1 (y1 + 1) ((height : Int) - 2) 4 buf
  let buf ← fast_draw_line L w obj (x1 + (width : Int) - 1) (y1 + 1) ((height : Int) - 2) 4 buf
  match fillobject with
  | none => .ok buf
  | some fo =>
      (pythonRange (y1 + 1) (y1 + (height : Int) - 1)).foldlM
        (fun buf y => fast_draw_line L w fo (x1 + 1) y ((width : Int) - 2) 2 buf) buf

/-- `fill_cell` on the encoded buffer. -/
def fast_fill_cell (L w : Nat) (ro rp : List Nat) (x y : Int) (st : (Nat × Nat) × Nat) : Except String ((Nat × Nat) × Nat) := do
  let seeds := bdrandom st.1
  let obj := (ro.zip rp).foldl (fun obj pr => if seeds.1 < pr.2 then pr.1 else obj) 0x01
  let buf ← fast_draw_single L w obj x y st.2
  .ok (seeds, buf)

/-- `random_fill` on the encoded buffer (the zeroed buffer encodes to 0). -/
def fast_random_fill (w h : Nat) (ro rp : List Nat) (randomseed : Nat) : Except String ((Nat × Nat) × Nat) :=
  (pythonRange 1 ((h : Int) - 1)).foldlM
    (fun st y => (pythonRange 0 (w : Int)).foldlM (fun st x => fast_fill_cell (w * h) w ro rp x y st) st)
    ((0, randomseed), 0)

/-- `background` on the encoded buffer. -/
def fast_background (w h : Nat) (ro rp : List Nat) (randomseed : Nat) : Except String ((Nat × Nat) × Nat) := do
  let st ← fast_random_fill w h ro rp randomseed
  let buf ← fast_draw_rectangle (w * h) w 0x07 0 0 w h none st.2
  .ok (st.1, buf)

/-- `dispatch_kind` on the encoded buffer. -/
def fast_dispatch_kind (L w : Nat) (data : List Nat) (n : Nat) (buf : Nat) (obj kind : Nat) (x y : Int) : Except String (Nat × Nat) :=
  match kind with
  | 0 => do
      let buf ← fast_draw_single L w obj x y buf
      .ok (buf, n + 3)
  | 1 => do
      let length ← getByte data (n + 3)
      let direction ← getByte data (n + 4)
      let buf ← fast_draw_line L w obj x y (length : Int) (direction : Int) buf
      .ok (buf, n + 5)
  | 2 => do
      let width ← getByte data (n + 3)
      let height ← getByte data (n + 4)
      let fillobject ← getByte data (n + 5)
      let buf ← fast_draw_rectangle L w obj x y width height (some fillobject) buf
      .ok (buf, n + 6)
  | 3 => do
      let width ← getByte data (n + 3)
      let height ← getByte data (n + 4)
      let buf ← fast_draw_rectangle L w obj x y width height none buf
      .ok (buf, n + 5)
  | _ => .error "invalid cave instruction encountered"

/-- `interpret` on the encoded buffer. -/
def fast_interpret (L w : Nat) (data : List Nat) : Nat → Nat → Nat → Except String Nat
  | 0, buf, _ => .ok buf
  | fuel + 1, buf, n =>
    if h : n < data.length then
      if data.get ⟨n, h⟩ < 0xff then
        match getByte data (n + 1), getByte data (n + 2) with
        | .ok x, .ok y0 =>
            match fast_dispatch_kind L w data n buf (data.get ⟨n, h⟩ &&& 0x3f)
                ((data.get ⟨n, h⟩ &&& 0xc0) >>> 6) (x : Int) ((y0 : Int) - 2) with
            | .ok r => fast_interpret L w data fuel r.1 r.2
            | .error e => .error e
        | .error e, _ => .error e
        | .ok _, .error e => .error e
      else .ok buf
    else .ok buf

/-- Whether the first `L` base-256 digits of `buf` all have a `conversion`
table entry (so `translate_codes` succeeds on the decoded buffer). -/
def fast_translate_all : Nat → Nat → Bool
  | 0, _ => true
  | L + 1, buf => ((conversion.lookup (buf % 256)).isSome) && fast_translate_all L (buf / 256)

/-- The refined `build_map` success verdict. -/
def fast_build_ok (w h : Nat) (ro rp : List Nat) (randomseed : Nat) (data : List Nat) : Bool :=
  match fast_background w h ro rp randomseed >>=
      (fun bg => fast_interpret (w * h) w data (data.length + 1) bg.2 0) with
  | .ok buf => fast_translate_all (w * h) buf
  | .error _ => false

/-- The refined `decode_from_lvl` success verdict: the record exists, all
header reads are in range, and the map build succeeds. -/
def fast_decode_ok (levelnumber : Nat) : Bool :=
  if h : 0 < levelnumber ∧ levelnumber ≤ BD1CAVES.length then
    let data := (BD1CAVES.get ⟨levelnumber - 1, by omega⟩).2.2
    decide (0x1f < data.length) &&
      fast_build_ok 40 22
        [data.getD 0x18 0, data.getD 0x19 0, data.getD 0x1a 0, data.getD 0x1b 0]
        [data.getD 0x1c 0, data.getD 0x1d 0, data.getD 0x1e 0, data.getD 0x1f 0]
        (data.getD 0x04 0) (data.drop 0x20)
  else false

/-- The refinement relation between a buffer computation over `List Nat`
and its encoded counterpart: same success/failure, related payloads. -/
def ExceptRel {β γ : Type} (R : β → γ → Prop) : Except String β → Except String γ → Prop
  | .ok b, .ok c => R b c
  | .error _, .error _ => True
  | _, _ => False

/-- The buffer refinement invariant: right length, all bytes, and the
base-256 encoding matches. -/
def BufR (L : Nat) (cm : List Nat) (buf : Nat) : Prop :=
  cm.length = L ∧ (∀ c ∈ cm, c < 256) ∧ encodeBuf cm = buf

/-- The fill-state refinement invariant (seed pair equal, buffers related). -/
def StR (L : Nat) (st : (Nat × Nat) × List Nat) (stf : (Nat × Nat) × Nat) : Prop :=
  st.1 = stf.1 ∧ BufR L st.2 stf.2

/-! ## Theorems -/

/-! ## Verification infrastructure -/

/-- Inversion for `Except.bind` succeeding. -/
theorem except_bind_ok {α β : Type} {a : Except String α} {f : α → Except String β} {c : β}
    (h : (a >>= f) = .ok c) : ∃ v, a = .ok v ∧ f v = .ok c := by
  cases a with
  | ok v => exact ⟨v, rfl, h⟩
  | error e => simp [Bind.bind, Except.bind] at h

/-- An `Except` fold preserves a property of the state. -/
theorem foldlM_preserve {α β : Type} {f : β → α → Except String β} {P : β → Prop}
    (hf : ∀ b a b2, f b a = .ok b2 → P b → P b2) :
    ∀ (l : List α) (b b2 : β), l.foldlM f b = .ok b2 → P b → P b2 := by
  intro l
  induction l with
  | nil =>
      intro b b2 h hb
      simp only [List.foldlM, pure, Except.pure, Except.ok.injEq] at h
      rwa [← h]
  | cons a t ih =>
      intro b b2 h hb
      simp only [List.foldlM_cons] at h
      obtain ⟨v, hv, hrest⟩ := except_bind_ok h
      exact ih v b2 hrest (hf b a v hv hb)

theorem pythonSet_length {l l2 : List Nat} {i : Int} {v : Nat}
    (h : pythonSet l i v = .ok l2) : l2.length = l.length := by
  unfold pythonSet at h
  split at h
  · exact absurd h (by simp)
  · split at h
    · cases h; simp
    · split at h
      · cases h; simp
      · exact absurd h (by simp)

theorem draw_single_length {w obj : Nat} {x y : Int} {cm cm2 : List Nat}
    (h : draw_single w obj x y cm = .ok cm2) : cm2.length = cm.length :=
  pythonSet_length h

theorem draw_line_steps_length {w obj : Nat} {dx dy : Int} :
    ∀ (k : Nat) (x y : Int) (cm cm2 : List Nat),
      draw_line_steps w obj dx dy k x y cm = .ok cm2 → cm2.length = cm.length := by
  intro k
  induction k with
  | zero => intro x y cm cm2 h; cases h; rfl
  | succ n ih =>
      intro x y cm cm2 h
      simp only [draw_line_steps] at h
      obtain ⟨v, hv, hrest⟩ := except_bind_ok h
      rw [ih _ _ _ _ hrest, draw_single_length hv]

theorem draw_line_length {w obj : Nat} {x y length direction : Int} {cm cm2 : List Nat}
    (h : draw_line w obj x y length direction cm = .ok cm2) : cm2.length = cm.length := by
  unfold draw_line at h
  obtain ⟨d, _, hrest⟩ := except_bind_ok h
  exact draw_line_steps_length _ _ _ _ _ hrest

theorem draw_rectangle_length {w obj : Nat} {x1 y1 : Int} {width height : Nat}
    {fillobject : Option Nat} {cm cm2 : List Nat}
    (h : draw_rectangle w obj x1 y1 width height fillobject cm = .ok cm2) :
    cm2.length = cm.length := by
  unfold draw_rectangle at h
  obtain ⟨c1, h1, h⟩ := except_bind_ok h
  obtain ⟨c2, h2, h⟩ := except_bind_ok h
  obtain ⟨c3, h3, h⟩ := except_bind_ok h
  obtain ⟨c4, h4, h⟩ := except_bind_ok h
  have e1 := draw_line_length h1
  have e2 := draw_line_length h2
  have e3 := draw_line_length h3
  have e4 := draw_line_length h4
  match fillobject, h with
  | none, h => cases h; omega
  | some fo, h =>
      exact foldlM_preserve (P := fun cm2 => cm2.length = cm.length)
        (fun b a b2 hb hp => (draw_line_length hb).trans hp) _ _ _ h (by omega)

theorem fill_cell_length {w : Nat} {ro rp : List Nat} {x y : Int}
    {st st2 : (Nat × Nat) × List Nat}
    (h : fill_cell w ro rp x y st = .ok st2) : st2.2.length = st.2.length := by
  unfold fill_cell at h
  obtain ⟨v, hv, hrest⟩ := except_bind_ok h
  cases hrest
  exact draw_single_length hv

theorem random_fill_length {w h : Nat} {ro rp : List Nat} {seed : Nat}
    {st : (Nat × Nat) × List Nat}
    (hr : random_fill w h ro rp seed = .ok st) : st.2.length = w * h := by
  unfold random_fill at hr
  exact foldlM_preserve (P := fun (st : (Nat × Nat) × List Nat) => st.2.length = w * h)
    (fun b a b2 hb hp =>
      foldlM_preserve (P := fun (st : (Nat × Nat) × List Nat) => st.2.length = w * h)
        (fun b a b2 hb2 hp2 => (fill_cell_length hb2).trans hp2) _ _ _ hb hp)
    _ _ _ hr (by simp)

theorem background_length {w h : Nat} {ro rp : List Nat} {seed : Nat}
    {st : (Nat × Nat) × List Nat}
    (hb : background w h ro rp seed = .ok st) : st.2.length = w * h := by
  unfold background at hb
  obtain ⟨v, hv, hrest⟩ := except_bind_ok hb
  obtain ⟨v2, hv2, hrest2⟩ := except_bind_ok hrest
  cases hrest2
  rw [draw_rectangle_length hv2, random_fill_length hv]

theorem dispatch_kind_length {w : Nat} {data : List Nat} {n : Nat} {cm : List Nat}
    {obj kind : Nat} {x y : Int} {r : List Nat × Nat}
    (h : dispatch_kind w data n cm obj kind x y = .ok r) : r.1.length = cm.length := by
  unfold dispatch_kind at h
  match kind, h with
  | 0, h =>
      obtain ⟨v, hv, hrest⟩ := except_bind_ok h
      cases hrest; exact draw_single_length hv
  | 1, h =>
      obtain ⟨l1, _, h⟩ := except_bind_ok h
      obtain ⟨d1, _, h⟩ := except_bind_ok h
      obtain ⟨v, hv, hrest⟩ := except_bind_ok h
      cases hrest; exact draw_line_length hv
  | 2, h =>
      obtain ⟨l1, _, h⟩ := except_bind_ok h
      obtain ⟨d1, _, h⟩ := except_bind_ok h
      obtain ⟨f1, _, h⟩ := except_bind_ok h
      obtain ⟨v, hv, hrest⟩ := except_bind_ok h
      cases hrest; exact draw_rectangle_length hv
  | 3, h =>
      obtain ⟨l1, _, h⟩ := except_bind_ok h
      obtain ⟨d1, _, h⟩ := except_bind_ok h
      obtain ⟨v, hv, hrest⟩ := except_bind_ok h
      cases hrest; exact draw_rectangle_length hv
  | k + 4, h => exact absurd h (by simp)

theorem interpret_length {w : Nat} {data : List Nat} :
    ∀ (fuel : Nat) (cm : List Nat) (n : Nat) (cm2 : List Nat),
      interpret w data fuel cm n = .ok cm2 → cm2.length = cm.length := by
  intro fuel
  induction fuel with
  | zero => intro cm n cm2 h; cases h; rfl
  | succ f ih =>
      intro cm n cm2 h
      unfold interpret at h
      repeat' split at h
      all_goals first
        | (cases h; rfl)
        | exact absurd h (by simp)
        | (rename_i r hd; rw [ih _ _ _ h, dispatch_kind_length hd])

theorem translate_codes_length :
    ∀ {cm : List Nat} {r : List Cell}, translate_codes cm = .ok r → r.length = cm.length := by
  intro cm
  induction cm with
  | nil => intro r h; cases h; rfl
  | cons c t ih =>
      intro r h
      unfold translate_codes at h
      rw [List.mapM_cons] at h
      obtain ⟨v, hv, h⟩ := except_bind_ok h
      obtain ⟨v2, hv2, h⟩ := except_bind_ok h
      cases h
      simpa using ih hv2

theorem build_map_length {w h : Nat} {ro rp : List Nat} {seed : Nat} {data : List Nat}
    {m : List Cell} (hb : build_map w h ro rp seed data = .ok m) : m.length = w * h := by
  unfold build_map at hb
  obtain ⟨bg, hbg, hb⟩ := except_bind_ok hb
  obtain ⟨cm, hcm, hb⟩ := except_bind_ok hb
  rw [translate_codes_length hb, interpret_length _ _ _ _ hcm, background_length hbg]

theorem amoeba_color_post_width (c : Cave) : (amoeba_color_post c).width = c.width := by
  unfold amoeba_color_post; split <;> rfl

theorem amoeba_color_post_height (c : Cave) : (amoeba_color_post c).height = c.height := by
  unfold amoeba_color_post; split <;> rfl

theorem amoeba_color_post_map (c : Cave) : (amoeba_color_post c).map = c.map := by
  unfold amoeba_color_post; split <;> rfl

/-- Whenever `decode_from_lvl` succeeds, the produced cave is 40 x 22 with
a translated map of exactly 880 cells. -/
theorem decode_ok_sizes : ∀ {n : Nat} {c : Cave}, decode_from_lvl n = .ok c →
    c.width = 40 ∧ c.height = 22 ∧ c.map.length = 880 := by
  intro n c h
  unfold decode_from_lvl at h
  split at h
  · obtain ⟨v00, _, h⟩ := except_bind_ok h
    obtain ⟨v01, _, h⟩ := except_bind_ok h
    obtain ⟨v02, _, h⟩ := except_bind_ok h
    obtain ⟨v03, _, h⟩ := except_bind_ok h
    obtain ⟨v04, _, h⟩ := except_bind_ok h
    obtain ⟨v09, _, h⟩ := except_bind_ok h
    obtain ⟨v0e, _, h⟩ := except_bind_ok h
    obtain ⟨v13, _, h⟩ := except_bind_ok h
    obtain ⟨v14, _, h⟩ := except_bind_ok h
    obtain ⟨v15, _, h⟩ := except_bind_ok h
    obtain ⟨v18, _, h⟩ := except_bind_ok h
    obtain ⟨v19, _, h⟩ := except_bind_ok h
    obtain ⟨v1a, _, h⟩ := except_bind_ok h
    obtain ⟨v1b, _, h⟩ := except_bind_ok h
    obtain ⟨v1c, _, h⟩ := except_bind_ok h
    obtain ⟨v1d, _, h⟩ := except_bind_ok h
    obtain ⟨v1e, _, h⟩ := except_bind_ok h
    obtain ⟨v1f, _, h⟩ := except_bind_ok h
    obtain ⟨pal, _, h⟩ := except_bind_ok h
    obtain ⟨m, hm, h⟩ := except_bind_ok h
    cases h
    refine ⟨amoeba_color_post_width _, amoeba_color_post_height _, ?_⟩
    rw [amoeba_color_post_map]
    exact build_map_length hm
  · exact absurd h (by simp)

/-! ## Claims -/

/-- C1: the random generator step `C64Cave.bdrandom` keeps every seed pair
with both components in `[0, 255]` inside `[0, 255]²`, and the step applied
to the pair `(s0 = 1, s1 = 0)` yields exactly the successor pair
`(s0 = 0x81, s1 = 0x13)` obtained by hand-executing the documented
algorithm. -/
theorem C1_bdrandom_step :
    (∀ s0 s1 : Nat, s0 ≤ 0xFF → s1 ≤ 0xFF →
      (bdrandom (s0, s1)).1 ≤ 0xFF ∧ (bdrandom (s0, s1)).2 ≤ 0xFF)
    ∧ bdrandom (1, 0) = (0x81, 0x13) := by
  refine ⟨fun s0 s1 _ _ => ⟨?_, ?_⟩, by decide⟩ <;>
    (simp only [bdrandom]; exact Nat.and_le_right)

/-- Witness for C1 at the concrete seed pair `(3, 7)`. -/
theorem C1_bdrandom_step_witness :
    (bdrandom (3, 7)).1 ≤ 0xFF ∧ (bdrandom (3, 7)).2 ≤ 0xFF :=
  C1_bdrandom_step.1 3 7 (by decide) (by decide)

/-- C4 counterexample: the binary-format conversion table is not injective
into `(GameObject, Direction)` pairs: the two distinct codes `0x10` and
`0x12` both map to `(BOULDER, NOWHERE)` (and `0x14`/`0x16` both map to
`(DIAMOND, NOWHERE)`). -/
theorem C4_conversion_not_injective :
    conversion.lookup 0x10 = some (GameObject.BOULDER, Direction.NOWHERE)
    ∧ conversion.lookup 0x12 = some (GameObject.BOULDER, Direction.NOWHERE)
    ∧ conversion.lookup 0x14 = some (GameObject.DIAMOND, Direction.NOWHERE)
    ∧ conversion.lookup 0x16 = some (GameObject.DIAMOND, Direction.NOWHERE)
    ∧ (0x10 : Nat) ≠ 0x12 ∧ (0x14 : Nat) ≠ 0x16 := by
  decide

theorem bind_congr_right {α β : Type} {a : Except String α} {f g : α → Except String β}
    (h : ∀ v, f v = g v) : a >>= f = a >>= g := by
  cases a <;> simp [Bind.bind, Except.bind, h]

theorem foldlM_const_ok {α β : Type} {f : β → α → Except String β}
    (hf : ∀ b a, f b a = .ok b) : ∀ (l : List α) (b : β), l.foldlM f b = .ok b := by
  intro l
  induction l with
  | nil => intro b; rfl
  | cons a t ih =>
      intro b
      rw [List.foldlM_cons, hf b a]
      exact ih b

/-- A `draw_line` with nonpositive length in direction 2 draws nothing. -/
theorem draw_line_nonpos {W obj : Nat} {x y : Int} {len : Int} {cm : List Nat}
    (hlen : len ≤ 0) : draw_line W obj x y len 2 cm = .ok cm := by
  unfold draw_line
  rw [show pythonGet directionTable 2 = .ok ((1 : Int), (0 : Int)) from by decide]
  show draw_line_steps W obj 1 0 len.toNat x y cm = .ok cm
  rw [Int.toNat_of_nonpos hlen]
  rfl

theorem pythonRange_empty {a b : Int} (h : b ≤ a) : pythonRange a b = [] := by
  unfold pythonRange
  rw [show (b - a).toNat = 0 by omega]
  rfl

/-- C5: `draw_rectangle` with width 5, height 4, outline steel (`0x07`) and
fill dirt (`0x01`) on an all-empty 10 x 10 buffer at position `(2, 3)` sets
exactly the outline cells to steel and exactly the 3 x 2 interior cells to
dirt, leaving every other cell unchanged; and for degenerate sizes
(width < 2 or height < 2) the interior fill draws zero cells, so the filled
call equals the outline-only call. -/
theorem C5_draw_rectangle :
    (draw_rectangle 10 0x07 2 3 5 4 (some 0x01) (List.replicate 100 0) =
      .ok ((List.range 100).map (fun i =>
        if (2 ≤ i % 10 ∧ i % 10 ≤ 6 ∧ 3 ≤ i / 10 ∧ i / 10 ≤ 6) ∧
           (i % 10 = 2 ∨ i % 10 = 6 ∨ i / 10 = 3 ∨ i / 10 = 6) then 0x07
        else if 3 ≤ i % 10 ∧ i % 10 ≤ 5 ∧ 4 ≤ i / 10 ∧ i / 10 ≤ 5 then 0x01
        else 0x00)))
    ∧ (∀ (W obj : Nat) (x1 y1 : Int) (width height fill : Nat) (cm : List Nat),
        width < 2 ∨ height < 2 →
        draw_rectangle W obj x1 y1 width height (some fill) cm =
        draw_rectangle W obj x1 y1 width height none cm) := by
  constructor
  · decide
  · intro W obj x1 y1 width height fill cm hdeg
    unfold draw_rectangle
    refine bind_congr_right (fun c1 => bind_congr_right (fun c2 =>
      bind_congr_right (fun c3 => bind_congr_right (fun c4 => ?_))))
    show (pythonRange (y1 + 1) (y1 + (height : Int) - 1)).foldlM
        (fun cm y => draw_line W fill (x1 + 1) y ((width : Int) - 2) 2 cm) c4 = .ok c4
    rcases hdeg with hw | hh
    · exact foldlM_const_ok (fun b a => draw_line_nonpos (by omega)) _ _
    · rw [pythonRange_empty (by omega)]
      rfl

/-- Witness for C5 (degenerate part) at width 1, height 5. -/
theorem C5_draw_rectangle_witness :
    draw_rectangle 10 7 0 0 1 5 (some 1) (List.replicate 50 0) =
    draw_rectangle 10 7 0 0 1 5 none (List.replicate 50 0) :=
  C5_draw_rectangle.2 10 7 0 0 1 5 1 (List.replicate 50 0) (Or.inl (by decide))

/-- C9: the `else: raise ValueError` arm of the instruction dispatch: a
kind value outside `{0, 1, 2, 3}` yields the fatal format error, and an
error result of the dispatch aborts the whole interpreter loop with that
same error (the instruction is not skipped). -/
theorem C9_invalid_kind :
    (∀ (w : Nat) (data : List Nat) (n : Nat) (cm : List Nat) (obj kind : Nat) (x y : Int),
        3 < kind →
        dispatch_kind w data n cm obj kind x y = .error "invalid cave instruction encountered")
    ∧ (∀ (w : Nat) (data : List Nat) (fuel : Nat) (cm : List Nat) (n : Nat)
        (x y0 : Nat) (e : String) (hn : n < data.length),
        data.get ⟨n, hn⟩ < 0xff →
        getByte data (n + 1) = .ok x →
        getByte data (n + 2) = .ok y0 →
        dispatch_kind w data n cm (data.get ⟨n, hn⟩ &&& 0x3f)
          ((data.get ⟨n, hn⟩ &&& 0xc0) >>> 6) (x : Int) ((y0 : Int) - 2) = .error e →
        interpret w data (fuel + 1) cm n = .error e) := by
  constructor
  · intro w data n cm obj kind x y hk
    match kind, hk with
    | k + 4, _ => rfl
  · intro w data fuel cm n x y0 e hn hlt hx hy hd
    unfold interpret
    rw [dif_pos hn, if_pos hlt]
    simp only [hx, hy, hd]

/-- Witness for C9: kind 4 errors, and a kind-1 instruction whose length
operand is missing aborts the interpreter with the read error. -/
theorem C9_invalid_kind_witness :
    dispatch_kind 40 [] 0 [] 1 4 0 0 = .error "invalid cave instruction encountered"
    ∧ interpret 40 [0x41, 0, 2] 1 [] 0 = .error "IndexError: list index out of range" :=
  ⟨C9_invalid_kind.1 40 [] 0 [] 1 4 0 0 (by decide),
   C9_invalid_kind.2 40 [0x41, 0, 2] 0 [] 0 0 2 "IndexError: list index out of range"
     (by decide) (by decide) (by decide) (by decide) (by decide)⟩

/-- C8: out-of-range cave indices.  In builtin mode, indices 0 and N+1 are
both rejected (the decode assert).  In bdcff mode, index N+1 is rejected
(`IndexError`), but index 0 is NOT: `caves[0 - 1]` is Python `caves[-1]`,
which silently returns the LAST cave of the catalog, so a cave is produced
with no bounds error — contradicting the claim for that mode. -/
theorem C8_bounds_behavior :
    (CaveSet.cave (CaveSet.init none) 0).isOk = false
    ∧ (CaveSet.cave (CaveSet.init none) (BD1CAVES.length + 1)).isOk = false
    ∧ (CaveSet.cave (CaveSet.init (some bdcff_test_catalog))
        (bdcff_test_catalog.caves.length + 1)).isOk = false
    ∧ (CaveSet.cave (CaveSet.init (some bdcff_test_catalog)) 0).isOk = true := by
  refine ⟨by decide, by decide, by decide, by decide⟩

/-- C4 (amended): the structured-text table `BDCFFOBJECTS` is injective
into `(GameObject, Direction)` pairs (and its symbols are distinct); the
binary conversion table has distinct codes but is injective only up to the
two collisions `0x10`/`0x12` (both boulder) and `0x14`/`0x16` (both
diamond), which are its only value collisions. -/
theorem C4_tables_injectivity :
    BDCFFOBJECTS.Pairwise (fun a b => a.2 ≠ b.2)
    ∧ BDCFFOBJECTS.Pairwise (fun a b => a.1 ≠ b.1)
    ∧ conversion.Pairwise (fun a b => a.1 ≠ b.1)
    ∧ conversion.Pairwise (fun a b => a.2 = b.2 →
        (a.1 = 0x10 ∧ b.1 = 0x12) ∨ (a.1 = 0x14 ∧ b.1 = 0x16)) := by
  refine ⟨by decide, by decide, by decide, by decide⟩

theorem exec_cons_ok {w : Nat} {i : Instr} {cm cm2 : List Nat}
    (hi : execInstr w cm i = .ok cm2) (p : Except String (List Instr)) (m : List Nat) :
    (((p >>= fun rest => .ok (i :: rest)) >>= fun is => execInstrs w is cm) = .ok m)
    ↔ ((p >>= fun is => execInstrs w is cm2) = .ok m) := by
  cases p <;> simp [Bind.bind, Except.bind, execInstrs, hi]

theorem exec_cons_err {w : Nat} {i : Instr} {cm : List Nat} {e : String}
    (hi : execInstr w cm i = .error e) (p : Except String (List Instr)) (m : List Nat) :
    ¬ (((p >>= fun rest => .ok (i :: rest)) >>= fun is => execInstrs w is cm) = .ok m) := by
  cases p <;> simp [Bind.bind, Except.bind, execInstrs, hi]

theorem bind_ok {α β : Type} (a : α) (f : α → Except String β) :
    (Except.ok a : Except String α) >>= f = f a := rfl

theorem bind_err {α β : Type} (e : String) (f : α → Except String β) :
    (Except.error e : Except String α) >>= f = .error e := rfl

/-- C3: the instruction interpreter loop is exactly parse-then-execute:
it reads the stream sequentially, stopping at a byte >= 0xFF or stream
end; each first byte encodes the object code in its low 6 bits and the
kind in its top 2 bits; y is adjusted down by 2; kinds 0/1/2/3 consume
3/5/6/5 bytes and are dispatched to the point, line, filled-rectangle and
outline-rectangle drawing primitives respectively (see `parseInstrs` and
`execInstr`). -/
theorem C3_interpreter_parse_exec :
    ∀ (w : Nat) (data : List Nat) (fuel : Nat) (cm : List Nat) (n : Nat) (m : List Nat),
      interpret w data fuel cm n = .ok m ↔
      (parseInstrs data fuel n >>= fun is => execInstrs w is cm) = .ok m := by
  intro w data fuel
  induction fuel with
  | zero =>
      intro cm n m
      show Except.ok cm = .ok m ↔ (Except.ok [] >>= fun is => execInstrs w is cm) = .ok m
      rw [bind_ok]
      show _ ↔ Except.ok cm = .ok m
      exact Iff.rfl
  | succ f ih =>
      intro cm n m
      unfold interpret parseInstrs
      by_cases hn : n < data.length
      · rw [dif_pos hn, dif_pos hn]
        by_cases hb : data.get ⟨n, hn⟩ < 0xff
        · rw [if_pos hb, if_pos hb]
          cases hx : getByte data (n + 1) with
          | error e => simp only [hx, bind_err]
          | ok x =>
            cases hy : getByte data (n + 2) with
            | error e => simp only [hx, hy, bind_ok, bind_err]
            | ok y0 =>
              simp only [hx, hy, bind_ok]
              generalize ((data.get ⟨n, hn⟩ &&& 0xc0) >>> 6) = k
              match k with
              | 0 =>
                  simp only [dispatch_kind]
                  cases hdraw : draw_single w (data.get ⟨n, hn⟩ &&& 0x3f) (x : Int) ((y0 : Int) - 2) cm with
                  | error e =>
                      simp only [hdraw, bind_err]
                      exact iff_of_false (by simp)
                        (exec_cons_err (by simpa [execInstr] using hdraw) _ _)
                  | ok cm2 =>
                      simp only [hdraw, bind_ok]
                      rw [exec_cons_ok (by simpa [execInstr] using hdraw)]
                      exact ih cm2 (n + 3) m
              | 1 =>
                  simp only [dispatch_kind]
                  cases hlen : getByte data (n + 3) with
                  | error e =>
                      simp only [hlen, bind_err]
                  | ok length =>
                    simp only [hlen, bind_ok]
                    cases hdir : getByte data (n + 4) with
                    | error e =>
                        simp only [hdir, bind_err]
                    | ok direction =>
                      simp only [hdir, bind_ok]
                      cases hdraw : draw_line w (data.get ⟨n, hn⟩ &&& 0x3f) (x : Int) ((y0 : Int) - 2)
                          (length : Int) (direction : Int) cm with
                      | error e =>
                          simp only [hdraw, bind_err]
                          exact iff_of_false (by simp)
                            (exec_cons_err (by simpa [execInstr] using hdraw) _ _)
                      | ok cm2 =>
                          simp only [hdraw, bind_ok]
                          rw [exec_cons_ok (by simpa [execInstr] using hdraw)]
                          exact ih cm2 (n + 5) m
              | 2 =>
                  simp only [dispatch_kind]
                  cases hwd : getByte data (n + 3) with
                  | error e =>
                      simp only [hwd, bind_err]
                  | ok width =>
                    simp only [hwd, bind_ok]
                    cases hht : getByte data (n + 4) with
                    | error e =>
                        simp only [hht, bind_err]
                    | ok height =>
                      simp only [hht, bind_ok]
                      cases hfo : getByte data (n + 5) with
                      | error e =>
                          simp only [hfo, bind_err]
                      | ok fillcode =>
                        simp only [hfo, bind_ok]
                        cases hdraw : draw_rectangle w (data.get ⟨n, hn⟩ &&& 0x3f) (x : Int)
                            ((y0 : Int) - 2) width height (some fillcode) cm with
                        | error e =>
                            simp only [hdraw, bind_err]
                            exact iff_of_false (by simp)
                              (exec_cons_err (by simpa [execInstr] using hdraw) _ _)
                        | ok cm2 =>
                            simp only [hdraw, bind_ok]
                            rw [exec_cons_ok (by simpa [execInstr] using hdraw)]
                            exact ih cm2 (n + 6) m
              | 3 =>
                  simp only [dispatch_kind]
                  cases hwd : getByte data (n + 3) with
                  | error e =>
                      simp only [hwd, bind_err]
                  | ok width =>
                    simp only [hwd, bind_ok]
                    cases hht : getByte data (n + 4) with
                    | error e =>
                        simp only [hht, bind_err]
                    | ok height =>
                      simp only [hht, bind_ok]
                      cases hdraw : draw_rectangle w (data.get ⟨n, hn⟩ &&& 0x3f) (x : Int)
                          ((y0 : Int) - 2) width height none cm with
                      | error e =>
                          simp only [hdraw, bind_err]
                          exact iff_of_false (by simp)
                            (exec_cons_err (by simpa [execInstr] using hdraw) _ _)
                      | ok cm2 =>
                          simp only [hdraw, bind_ok]
                          rw [exec_cons_ok (by simpa [execInstr] using hdraw)]
                          exact ih cm2 (n + 5) m
              | (k + 4) =>
                  simp only [dispatch_kind]
                  exact iff_of_false (by simp) (by simp [bind_err])
        · rw [if_neg hb, if_neg hb, bind_ok]
          exact Iff.rfl
      · rw [dif_neg hn, dif_neg hn, bind_ok]
        exact Iff.rfl

/-- Row-major cell coordinates are uniquely determined by the flat index. -/
theorem idx_inj {w x x0 y y0 : Nat} (hx : x < w) (hx0 : x0 < w)
    (he : x + y * w = x0 + y0 * w) : x = x0 ∧ y = y0 := by
  have hxm : (x + y * w) % w = x := by
    rw [Nat.add_mul_mod_self_right, Nat.mod_eq_of_lt hx]
  have hx0m : (x0 + y0 * w) % w = x0 := by
    rw [Nat.add_mul_mod_self_right, Nat.mod_eq_of_lt hx0]
  have hxx : x = x0 := by rw [← hxm, ← hx0m, he]
  refine ⟨hxx, ?_⟩
  have hw : 0 < w := by omega
  have : y * w = y0 * w := by omega
  exact Nat.eq_of_mul_eq_mul_right hw this

/-- The `for randomobj, randomprob in zip(...)` selection loop picks the
last pair whose probability exceeds the byte (later matches override),
defaulting to the initial value. -/
theorem foldl_choice_eq (s0 : Nat) :
    ∀ (l : List (Nat × Nat)) (init : Nat),
      l.foldl (fun obj pr => if s0 < pr.2 then pr.1 else obj) init
        = ((l.filter (fun pr => s0 < pr.2)).getLast?).elim init Prod.fst := by
  intro l
  induction l with
  | nil => intro init; rfl
  | cons a t ih =>
      intro init
      rw [List.foldl_cons, ih, List.filter_cons]
      by_cases ha : s0 < a.2
      · rw [if_pos ha, if_pos (by simpa using ha)]
        cases ht : t.filter (fun pr => decide (s0 < pr.2)) with
        | nil => simp [ht]
        | cons b u =>
            rw [List.getLast?_cons_cons]
            have hsome : ∃ z, (b :: u).getLast? = some z := by
              cases hz : (b :: u).getLast? with
              | none => exact absurd (List.getLast?_eq_none_iff.mp hz) (by simp)
              | some z => exact ⟨z, rfl⟩
            obtain ⟨z, hz⟩ := hsome
            rw [hz]
            rfl
      · rw [if_neg ha, if_neg (by simpa using ha)]

/-- The selected object is the initial value or one of the listed objects. -/
theorem foldl_choice_le {ro rp : List Nat} (hro : ∀ o ∈ ro, o ≤ 255) (s0 : Nat) :
    (ro.zip rp).foldl (fun obj pr => if s0 < pr.2 then pr.1 else obj) 0x01 ≤ 255 := by
  rw [foldl_choice_eq]
  cases hl : ((ro.zip rp).filter (fun pr => s0 < pr.2)).getLast? with
  | none => simp [Option.elim]
  | some pr =>
      simp only [Option.elim]
      have hmem : pr ∈ (ro.zip rp).filter (fun pr => s0 < pr.2) :=
        List.mem_of_getLast?_eq_some hl
      have hzip : pr ∈ ro.zip rp := List.mem_of_mem_filter hmem
      obtain ⟨p1, p2⟩ := pr
      exact hro p1 (List.of_mem_zip hzip).1

/-- A `bytearray` write at an in-range nonnegative index with a byte value. -/
theorem pythonSet_ok_nat {cm : List Nat} {j v : Nat} (hv : v ≤ 255) (hj : j < cm.length) :
    pythonSet cm (j : Int) v = .ok (cm.set j v) := by
  unfold pythonSet
  rw [if_neg (by omega), if_pos (by constructor <;> [positivity; exact_mod_cast hj]),
    Int.toNat_natCast]

/-- `draw_single` at natural coordinates in range writes the cell. -/
theorem draw_single_ok {w obj x y : Nat} {cm : List Nat} (hobj : obj ≤ 255)
    (hidx : x + y * w < cm.length) :
    draw_single w obj (x : Int) (y : Int) cm = .ok (cm.set (x + y * w) obj) := by
  unfold draw_single
  rw [show (x : Int) + (y : Int) * (w : Int) = ((x + y * w : Nat) : Int) by push_cast; ring]
  exact pythonSet_ok_nat hobj hidx

/-- Peeling the first element off a natural `range(a, b)`. -/
theorem pythonRange_cons_nat {a b : Nat} (hab : a < b) :
    pythonRange (a : Int) (b : Int) = (a : Int) :: pythonRange ((a + 1 : Nat) : Int) (b : Int) := by
  unfold pythonRange
  rw [show ((b : Int) - (a : Int)).toNat = (b - a - 1) + 1 by omega,
    List.range_succ_eq_map,
    show ((b : Int) - ((a + 1 : Nat) : Int)).toNat = b - a - 1 by omega]
  simp only [List.map_cons, List.map_map]
  exact congr_arg₂ List.cons (by push_cast; ring)
    (List.map_congr_left (fun k _ => by simp only [Function.comp_apply]; push_cast; ring))

/-- Effect of a horizontal line (direction 2, vector `(1, 0)`). -/
theorem hline_go (w obj : Nat) (hobj : obj ≤ 255) (y0 : Nat) :
    ∀ (len x0 : Nat) (cm : List Nat), x0 + len ≤ w → (y0 + 1) * w ≤ cm.length →
      ∃ cm2, draw_line_steps w obj 1 0 len (x0 : Int) (y0 : Int) cm = .ok cm2
        ∧ cm2.length = cm.length
        ∧ (∀ x y : Nat, x < w →
            cm2[x + y * w]? =
              if y = y0 ∧ x0 ≤ x ∧ x < x0 + len then some obj else cm[x + y * w]?) := by
  intro len
  induction len with
  | zero =>
      intro x0 cm hxw hlen
      exact ⟨cm, rfl, rfl, fun x y hx => by rw [if_neg (by omega)]⟩
  | succ k ih =>
      intro x0 cm hxw hlen
      have hymul : (y0 + 1) * w = y0 * w + w := by ring
      have hidx : x0 + y0 * w < cm.length := by omega
      obtain ⟨cm2, hrec, hlen2, hcells⟩ := ih (x0 + 1) (cm.set (x0 + y0 * w) obj)
        (by omega) (by simpa using hlen)
      refine ⟨cm2, ?_, by simpa using hlen2, ?_⟩
      · simp only [draw_line_steps]
        rw [draw_single_ok hobj hidx, bind_ok,
          show (x0 : Int) + 1 = ((x0 + 1 : Nat) : Int) by push_cast; ring,
          show (y0 : Int) + 0 = (y0 : Int) by ring]
        exact hrec
      · intro x y hx
        rw [hcells x y hx]
        by_cases hA : y = y0 ∧ x0 + 1 ≤ x ∧ x < x0 + 1 + k
        · rw [if_pos hA, if_pos (by omega)]
        · rw [if_neg hA]
          by_cases hxy : x = x0 ∧ y = y0
          · rw [hxy.1, hxy.2, List.getElem?_set_self hidx, if_pos (by omega)]
          · push_neg at hxy hA
            have hne : x0 + y0 * w ≠ x + y * w := by
              intro he
              obtain ⟨h1, h2⟩ := idx_inj hx (show x0 < w from by omega) he.symm
              exact hxy (by omega) (by omega)
            rw [List.getElem?_set_ne hne, if_neg (by omega)]

/-- Effect of a vertical line (direction 4, vector `(0, 1)`). -/
theorem vline_go (w obj : Nat) (hobj : obj ≤ 255) (x0 : Nat) (hx0 : x0 < w) :
    ∀ (len y0 : Nat) (cm : List Nat), (y0 + len) * w ≤ cm.length →
      ∃ cm2, draw_line_steps w obj 0 1 len (x0 : Int) (y0 : Int) cm = .ok cm2
        ∧ cm2.length = cm.length
        ∧ (∀ x y : Nat, x < w →
            cm2[x + y * w]? =
              if x = x0 ∧ y0 ≤ y ∧ y < y0 + len then some obj else cm[x + y * w]?) := by
  intro len
  induction len with
  | zero =>
      intro y0 cm hlen
      exact ⟨cm, rfl, rfl, fun x y hx => by rw [if_neg (by omega)]⟩
  | succ k ih =>
      intro y0 cm hlen
      have hymul : (y0 + (k + 1)) * w = y0 * w + (k + 1) * w := by ring
      have hkw : (k + 1) * w = k * w + w := by ring
      have hidx : x0 + y0 * w < cm.length := by omega
      obtain ⟨cm2, hrec, hlen2, hcells⟩ := ih (y0 + 1) (cm.set (x0 + y0 * w) obj)
        (by
          simp only [List.length_set]
          have he1 : (y0 + 1 + k) * w = y0 * w + k * w + w := by ring
          have he2 : (y0 + (k + 1)) * w = y0 * w + k * w + w := by ring
          omega)
      refine ⟨cm2, ?_, by simpa using hlen2, ?_⟩
      · simp only [draw_line_steps]
        rw [draw_single_ok hobj hidx, bind_ok,
          show (x0 : Int) + 0 = (x0 : Int) by ring,
          show (y0 : Int) + 1 = ((y0 + 1 : Nat) : Int) by push_cast; ring]
        exact hrec
      · intro x y hx
        rw [hcells x y hx]
        by_cases hA : x = x0 ∧ y0 + 1 ≤ y ∧ y < y0 + 1 + k
        · rw [if_pos hA, if_pos (by omega)]
        · rw [if_neg hA]
          by_cases hxy : x = x0 ∧ y = y0
          · rw [hxy.1, hxy.2, List.getElem?_set_self hidx, if_pos (by omega)]
          · push_neg at hxy hA
            have hne : x0 + y0 * w ≠ x + y * w := by
              intro he
              obtain ⟨h1, h2⟩ := idx_inj hx hx0 he.symm
              exact hxy (by omega) (by omega)
            rw [List.getElem?_set_ne hne, if_neg (by omega)]

/-- Effect of the steel boundary `draw_rectangle(obj, 0, 0, w, h)` (no
fill): every border cell becomes `obj`, all others keep their value. -/
theorem rect_outline_spec (w h obj : Nat) (hobj : obj ≤ 255) (hw : 1 ≤ w) (hh : 2 ≤ h)
    (cm : List Nat) (hcm : cm.length = w * h) :
    ∃ cm2, draw_rectangle w obj 0 0 w h none cm = .ok cm2
      ∧ cm2.length = w * h
      ∧ (∀ x y : Nat, x < w → y < h →
          cm2[x + y * w]? =
            if x = 0 ∨ x = w - 1 ∨ y = 0 ∨ y = h - 1 then some obj
            else cm[x + y * w]?) := by
  obtain ⟨cmA, heqA, hlenA, hcellsA⟩ := hline_go w obj hobj 0 w 0 cm (by omega)
    (by simp only [hcm]; nlinarith)
  obtain ⟨cmB, heqB, hlenB, hcellsB⟩ := hline_go w obj hobj (h - 1) w 0 cmA (by omega)
    (by rw [hlenA, hcm, show (h - 1 + 1) = h from by omega, Nat.mul_comm])
  obtain ⟨cmC, heqC, hlenC, hcellsC⟩ := vline_go w obj hobj 0 hw (h - 2) 1 cmB
    (by rw [hlenB, hlenA, hcm, show (1 + (h - 2)) = h - 1 from by omega]; nlinarith [Nat.sub_le h 1])
  obtain ⟨cmD, heqD, hlenD, hcellsD⟩ := vline_go w obj hobj (w - 1) (by omega) (h - 2) 1 cmC
    (by rw [hlenC, hlenB, hlenA, hcm, show (1 + (h - 2)) = h - 1 from by omega]; nlinarith [Nat.sub_le h 1])
  refine ⟨cmD, ?_, by omega, ?_⟩
  · unfold draw_rectangle draw_line
    rw [show pythonGet directionTable 2 = .ok ((1 : Int), (0 : Int)) from by decide,
      show pythonGet directionTable 4 = .ok ((0 : Int), (1 : Int)) from by decide]
    simp only [bind_ok]
    rw [show ((0 : Int) + (h : Int) - 1) = ((h - 1 : Nat) : Int) by omega,
      show ((0 : Int) + (w : Int) - 1) = ((w - 1 : Nat) : Int) by omega,
      show ((0 : Int) + 1) = (1 : Int) by norm_num,
      show ((h : Int) - 2).toNat = h - 2 by omega,
      show ((w : Int)).toNat = w by omega]
    rw [show draw_line_steps w obj 1 0 w (0 : Int) (0 : Int) cm = .ok cmA from by simpa using heqA,
      bind_ok,
      show draw_line_steps w obj 1 0 w (0 : Int) ((h - 1 : Nat) : Int) cmA = .ok cmB from by
        simpa using heqB,
      bind_ok,
      show draw_line_steps w obj 0 1 (h - 2) (0 : Int) (1 : Int) cmB = .ok cmC from by
        simpa using heqC,
      bind_ok,
      show draw_line_steps w obj 0 1 (h - 2) ((w - 1 : Nat) : Int) (1 : Int) cmC = .ok cmD from by
        simpa using heqD,
      bind_ok]
  · intro x y hx hy
    rw [hcellsD x y hx, hcellsC x y hx, hcellsB x y hx, hcellsA x y hx]
    by_cases h1 : x = w - 1 ∧ 1 ≤ y ∧ y < 1 + (h - 2)
    · rw [if_pos h1, if_pos (by omega)]
    · rw [if_neg h1]
      by_cases h2 : x = 0 ∧ 1 ≤ y ∧ y < 1 + (h - 2)
      · rw [if_pos h2, if_pos (by omega)]
      · rw [if_neg h2]
        by_cases h3 : y = h - 1 ∧ 0 ≤ x ∧ x < 0 + w
        · rw [if_pos h3, if_pos (by omega)]
        · rw [if_neg h3]
          by_cases h4 : y = 0 ∧ 0 ≤ x ∧ x < 0 + w
          · rw [if_pos h4, if_pos (by omega)]
          · rw [if_neg h4, if_neg (by push_neg at h1 h2 h3 h4; omega)]

/-- One fill cell advances the generator once and writes the selected
object (the last matching `(object, probability)` pair, default dirt). -/
theorem fill_cell_ok {w : Nat} {ro rp : List Nat} (hro : ∀ o ∈ ro, o ≤ 255)
    {x y : Nat} {s : Nat × Nat} {cm : List Nat} (hidx : x + y * w < cm.length) :
    fill_cell w ro rp (x : Int) (y : Int) (s, cm)
      = .ok (bdrandom s, cm.set (x + y * w) (last_random_match ro rp (bdrandom s).1)) := by
  have hobj : ((ro.zip rp).foldl
      (fun (obj : Nat) (pr : Nat × Nat) => if (bdrandom s).1 < pr.2 then pr.1 else obj) 0x01) ≤ 255 :=
    foldl_choice_le hro _
  show (do
    let cm2 ← draw_single w ((ro.zip rp).foldl
      (fun (obj : Nat) (pr : Nat × Nat) => if (bdrandom s).1 < pr.2 then pr.1 else obj) 0x01)
      (x : Int) (y : Int) cm
    Except.ok (bdrandom s, cm2)) = _
  rw [draw_single_ok hobj hidx, bind_ok, foldl_choice_eq]
  rfl

/-- Effect of the fill loop over one row, from column `x0` on. -/
theorem fill_row_go (w : Nat) (ro rp : List Nat) (hro : ∀ o ∈ ro, o ≤ 255) (y : Nat) :
    ∀ (k x0 : Nat) (s : Nat × Nat) (cm : List Nat),
      x0 + k = w → (y + 1) * w ≤ cm.length →
      ∃ cm2,
        (pythonRange (x0 : Int) (w : Int)).foldlM
          (fun st2 x => fill_cell w ro rp x (y : Int) st2) (s, cm) = .ok (bdrandom^[k] s, cm2)
        ∧ cm2.length = cm.length
        ∧ (∀ x : Nat, x < w →
            cm2[x + y * w]? = if x0 ≤ x
              then some (last_random_match ro rp ((bdrandom^[x - x0 + 1] s).1))
              else cm[x + y * w]?)
        ∧ (∀ x yy : Nat, x < w → yy ≠ y → cm2[x + yy * w]? = cm[x + yy * w]?) := by
  intro k
  induction k with
  | zero =>
      intro x0 s cm hx0 hrow
      refine ⟨cm, ?_, rfl, ?_, fun x yy hx hyy => rfl⟩
      · rw [pythonRange_empty (by omega)]
        show Except.ok (s, cm) = Except.ok (bdrandom^[0] s, cm)
        rw [Function.iterate_zero_apply]
      · intro x hx
        rw [if_neg (by omega)]
  | succ k ih =>
      intro x0 s cm hx0 hrow
      have hmul : (y + 1) * w = y * w + w := by ring
      have hidx : x0 + y * w < cm.length := by omega
      obtain ⟨cm2, hrec, hlen2, hfill, hother⟩ := ih (x0 + 1) (bdrandom s)
        (cm.set (x0 + y * w) (last_random_match ro rp (bdrandom s).1))
        (by omega) (by simpa using hrow)
      refine ⟨cm2, ?_, by simpa using hlen2, ?_, ?_⟩
      · rw [pythonRange_cons_nat (by omega), List.foldlM_cons, fill_cell_ok hro hidx,
          bind_ok, hrec, Function.iterate_succ_apply]
      · intro x hx
        by_cases hx0x : x0 ≤ x
        · rw [if_pos hx0x, hfill x hx]
          rcases eq_or_ne x x0 with hq | hq
          · rw [if_neg (by omega), hq, List.getElem?_set_self (by omega),
              show x0 - x0 + 1 = 1 from by omega, Function.iterate_one]
          · rw [if_pos (by omega),
              show x - x0 + 1 = (x - (x0 + 1) + 1) + 1 from by omega]
            nth_rewrite 2 [Function.iterate_succ_apply]
            rfl
        · rw [if_neg hx0x, hfill x hx, if_neg (by omega),
            List.getElem?_set_ne (fun he => by
              obtain ⟨h1, h2⟩ := idx_inj hx (show x0 < w from by omega) he.symm
              omega)]
      · intro x yy hx hyy
        rw [hother x yy hx hyy,
          List.getElem?_set_ne (fun he => by
            obtain ⟨h1, h2⟩ := idx_inj hx (show x0 < w from by omega) he.symm
            exact hyy (by omega))]

/-- Effect of the fill loop over the rows from `y0` to `h - 2`. -/
theorem fill_rows_go (w h : Nat) (ro rp : List Nat) (hro : ∀ o ∈ ro, o ≤ 255) :
    ∀ (k y0 : Nat) (s : Nat × Nat) (cm : List Nat),
      y0 + k + 1 = h → cm.length = w * h →
      ∃ cm2,
        (pythonRange (y0 : Int) ((h - 1 : Nat) : Int)).foldlM
          (fun st yy => (pythonRange 0 (w : Int)).foldlM
            (fun st2 x => fill_cell w ro rp x yy st2) st) (s, cm)
          = .ok (bdrandom^[k * w] s, cm2)
        ∧ cm2.length = w * h
        ∧ (∀ x y : Nat, x < w → y0 ≤ y → y + 1 < h →
            cm2[x + y * w]? =
              some (last_random_match ro rp ((bdrandom^[(y - y0) * w + x + 1] s).1)))
        ∧ (∀ x y : Nat, x < w → (y < y0 ∨ h ≤ y + 1) → cm2[x + y * w]? = cm[x + y * w]?) := by
  intro k
  induction k with
  | zero =>
      intro y0 s cm hk hcm
      refine ⟨cm, ?_, hcm, ?_, fun x y hx hy => rfl⟩
      · rw [show pythonRange (y0 : Int) ((h - 1 : Nat) : Int) = [] from
          pythonRange_empty (by omega)]
        show Except.ok (s, cm) = Except.ok (bdrandom^[0 * w] s, cm)
        rw [Nat.zero_mul, Function.iterate_zero_apply]
      · intro x y hx hy0 hy1
        omega
  | succ k ih =>
      intro y0 s cm hk hcm
      have hrowlen : (y0 + 1) * w ≤ cm.length := by
        rw [hcm]
        calc (y0 + 1) * w ≤ h * w := Nat.mul_le_mul_right w (by omega)
          _ = w * h := Nat.mul_comm h w
      obtain ⟨cmR, hrow, hlenR, hfillR, hotherR⟩ :=
        fill_row_go w ro rp hro y0 w 0 s cm (by omega) hrowlen
      obtain ⟨cm2, hrec, hlen2, hfill2, hother2⟩ := ih (y0 + 1) (bdrandom^[w] s) cmR
        (by omega) (by omega)
      refine ⟨cm2, ?_, hlen2, ?_, ?_⟩
      · rw [pythonRange_cons_nat (show y0 < h - 1 from by omega), List.foldlM_cons,
          show ((pythonRange 0 (w : Int)).foldlM
              (fun st2 x => fill_cell w ro rp x (y0 : Int) st2) (s, cm))
            = .ok (bdrandom^[w] s, cmR) from by
              rw [show (0 : Int) = ((0 : Nat) : Int) from by norm_num]
              exact hrow,
          bind_ok, hrec, ← Function.iterate_add_apply,
          show k * w + w = (k + 1) * w from by ring]
      · intro x y hx hy0 hy1
        rcases eq_or_ne y y0 with hq | hq
        · subst hq
          rw [hother2 x y hx (Or.inl (by omega)), hfillR x hx, if_pos (by omega)]
          simp
        · have hyd : (y - y0) * w + x + 1 = ((y - (y0 + 1)) * w + x + 1) + w := by
            have h1 : y - y0 = (y - (y0 + 1)) + 1 := by omega
            rw [h1]; ring
          rw [hfill2 x y hx (by omega) hy1, hyd]
          nth_rewrite 2 [Function.iterate_add_apply]
          rfl
      · intro x y hx hy
        rw [hother2 x y hx (by omega), hotherR x y hx (by omega)]

/-- The complete randomized fill: seeds start at `[0, randomseed]`, the
generator advances once per cell of the `h - 2` interior rows, and each
cell receives the last matching random object (default dirt); the first
and last rows keep the zero initialization. -/
theorem random_fill_spec (w h : Nat) (ro rp : List Nat) (seed : Nat)
    (hw : 1 ≤ w) (hh : 2 ≤ h) (hro : ∀ o ∈ ro, o ≤ 255) :
    ∃ st, random_fill w h ro rp seed = .ok st
      ∧ st.1 = bdrandom^[(h - 2) * w] (0, seed)
      ∧ st.2.length = w * h
      ∧ (∀ x y : Nat, x < w → 1 ≤ y → y + 1 < h →
          st.2[x + y * w]? =
            some (last_random_match ro rp ((bdrandom^[(y - 1) * w + x + 1] (0, seed)).1)))
      ∧ (∀ x y : Nat, x < w → y < h → y = 0 ∨ h ≤ y + 1 →
          st.2[x + y * w]? = some 0) := by
  obtain ⟨cm2, heq, hlen, hfill, hother⟩ :=
    fill_rows_go w h ro rp hro (h - 2) 1 (0, seed) (List.replicate (w * h) 0)
      (by omega) (by simp)
  refine ⟨(bdrandom^[(h - 2) * w] (0, seed), cm2), ?_, rfl, hlen, hfill, ?_⟩
  · unfold random_fill
    rw [show (h : Int) - 1 = ((h - 1 : Nat) : Int) from by omega,
      show (1 : Int) = ((1 : Nat) : Int) from by norm_num]
    exact heq
  · intro x y hx hy hcase
    rw [hother x y hx (by omega)]
    have h1 : (y + 1) * w ≤ h * w := Nat.mul_le_mul_right w (by omega)
    have h2 : (y + 1) * w = y * w + w := by ring
    have h3 : w * h = h * w := Nat.mul_comm w h
    rw [List.getElem?_replicate_of_lt (by omega)]

/-- C2: in the randomized background phase of `build_map`, every cell of
every row except the first and last advances the generator exactly once
(cell `(x, y)` sees the generator state after `(y-1)*w + x + 1` steps from
`[0, randomseed]`, and the final seed state has advanced `(h-2)*w` times),
and receives the object of the last `(object, probability)` pair whose
probability strictly exceeds the first generator byte, defaulting to dirt
`0x01`; afterwards the steel (`0x07`) boundary rectangle overwrites the
fill on every border cell of the full `w x h` rectangle. -/
theorem C2_randomized_background (w h : Nat) (ro rp : List Nat) (seed : Nat)
    (hw : 1 ≤ w) (hh : 2 ≤ h) (hro4 : ro.length = 4) (hrp4 : rp.length = 4)
    (hro : ∀ o ∈ ro, o ≤ 255) :
    (background w h ro rp seed).isOk = true
    ∧ ((background w h ro rp seed).toOption.map Prod.fst).getD (0, 0)
        = bdrandom^[(h - 2) * w] (0, seed)
    ∧ (((background w h ro rp seed).toOption.map Prod.snd).getD []).length = w * h
    ∧ (∀ x y : Nat, x < w → y < h →
        (((background w h ro rp seed).toOption.map Prod.snd).getD [])[x + y * w]? =
          if x = 0 ∨ x = w - 1 ∨ y = 0 ∨ y = h - 1 then some 0x07
          else some (last_random_match ro rp ((bdrandom^[(y - 1) * w + x + 1] (0, seed)).1))) := by
  obtain ⟨st, hrf, hseeds, hlen, hfill, hzero⟩ := random_fill_spec w h ro rp seed hw hh hro
  obtain ⟨cmB, hrect, hlenB, hcellsB⟩ :=
    rect_outline_spec w h 0x07 (by norm_num) hw hh st.2 hlen
  have hbg : background w h ro rp seed = .ok (st.1, cmB) := by
    unfold background
    rw [hrf, bind_ok, hrect, bind_ok]
  rw [hbg]
  refine ⟨rfl, hseeds, hlenB, ?_⟩
  intro x y hx hy
  show cmB[x + y * w]? = _
  rw [hcellsB x y hx hy]
  by_cases hb : x = 0 ∨ x = w - 1 ∨ y = 0 ∨ y = h - 1
  · rw [if_pos hb, if_pos hb]
  · rw [if_neg hb, if_neg hb]
    push_neg at hb
    exact hfill x y hx (by omega) (by omega)

/-- Witness for C2 on a concrete 3 x 3 background with four
`(object, probability)` pairs. -/
theorem C2_randomized_background_witness :
    (background 3 3 [2, 3, 4, 5] [100, 0, 200, 1] 7).isOk = true
    ∧ ((background 3 3 [2, 3, 4, 5] [100, 0, 200, 1] 7).toOption.map Prod.fst).getD (0, 0)
        = bdrandom^[3] (0, 7)
    ∧ (((background 3 3 [2, 3, 4, 5] [100, 0, 200, 1] 7).toOption.map Prod.snd).getD []).length = 9
    ∧ (((background 3 3 [2, 3, 4, 5] [100, 0, 200, 1] 7).toOption.map Prod.snd).getD [])[1 + 1 * 3]? =
        some (last_random_match [2, 3, 4, 5] [100, 0, 200, 1] ((bdrandom^[2] (0, 7)).1)) := by
  have H := C2_randomized_background 3 3 [2, 3, 4, 5] [100, 0, 200, 1] 7
    (by decide) (by decide) (by decide) (by decide) (by decide)
  exact ⟨H.1, H.2.1, H.2.2.1,
    (H.2.2.2 1 1 (by decide) (by decide)).trans (if_neg (by decide))⟩

/-- `Palette.__init__` on seven int arguments accepts them unchanged. -/
theorem Palette_init_idx (a b c d e f g : Int) :
    Palette.init (.idx a) (.idx b) (.idx c) (.idx d) (.idx e) (.idx f) (.idx g)
      = .ok { fg1 := .idx a, fg2 := .idx b, fg3 := .idx c, amoeba := .idx d,
              slime := .idx e, screen := .idx f, border := .idx g } := rfl

/-- C7: after decoding a builtin cave, the third foreground color slot
equals the palette amoeba color iff some cell of the translated grid is
the amoeba object, and otherwise keeps its initial value (index 1, white);
the override is the single `amoeba_color_post` pass applied after
translation. -/
theorem C7_amoeba_fg3_override (n : Nat) : fg3_matches_amoeba (decode_from_lvl n) := by
  cases hd : decode_from_lvl n with
  | error e => trivial
  | ok c =>
      unfold decode_from_lvl at hd
      split at hd
      · obtain ⟨v00, _, hd⟩ := except_bind_ok hd
        obtain ⟨v01, _, hd⟩ := except_bind_ok hd
        obtain ⟨v02, _, hd⟩ := except_bind_ok hd
        obtain ⟨v03, _, hd⟩ := except_bind_ok hd
        obtain ⟨v04, _, hd⟩ := except_bind_ok hd
        obtain ⟨v09, _, hd⟩ := except_bind_ok hd
        obtain ⟨v0e, _, hd⟩ := except_bind_ok hd
        obtain ⟨v13, _, hd⟩ := except_bind_ok hd
        obtain ⟨v14, _, hd⟩ := except_bind_ok hd
        obtain ⟨v15, _, hd⟩ := except_bind_ok hd
        obtain ⟨v18, _, hd⟩ := except_bind_ok hd
        obtain ⟨v19, _, hd⟩ := except_bind_ok hd
        obtain ⟨v1a, _, hd⟩ := except_bind_ok hd
        obtain ⟨v1b, _, hd⟩ := except_bind_ok hd
        obtain ⟨v1c, _, hd⟩ := except_bind_ok hd
        obtain ⟨v1d, _, hd⟩ := except_bind_ok hd
        obtain ⟨v1e, _, hd⟩ := except_bind_ok hd
        obtain ⟨v1f, _, hd⟩ := except_bind_ok hd
        obtain ⟨pal, hpal, hd⟩ := except_bind_ok hd
        obtain ⟨m, hm, hd⟩ := except_bind_ok hd
        rw [Palette_init_idx] at hpal
        cases hpal
        cases hd
        show (amoeba_color_post _).colors.fg3 = _
        by_cases hamo : m.any (fun mm => mm.1 == GameObject.AMOEBA) = true
        · simp [amoeba_color_post, hamo]
        · simp only [Bool.not_eq_true] at hamo
          simp [amoeba_color_post, hamo]
      · exact absurd hd (by simp)

/-! ### C6: resize places the original content centered -/

theorem pythonRange_length (a b : Int) : (pythonRange a b).length = (b - a).toNat := by
  unfold pythonRange
  rw [List.length_map, List.length_range]

theorem pyHalfFloor_ofNat (d : Nat) : pyHalfFloor (d : Int) = ((d / 2 : Nat) : Int) := by
  cases d with
  | zero => rfl
  | succ k => rfl

theorem pyHalfCeil_ofNat (d : Nat) : pyHalfCeil (d : Int) = (((d + 1) / 2 : Nat) : Int) := by
  cases d with
  | zero => rfl
  | succ k => rfl

theorem pySliceTo_ofNat {α : Type} (l : List α) (k : Nat) :
    pySliceTo l (k : Int) = l.take k := by
  simp [pySliceTo]

theorem map_const_replicate {α β : Type} (c : β) :
    ∀ (l : List α), l.map (fun _ => c) = List.replicate l.length c := by
  intro l
  induction l with
  | nil => rfl
  | cons a t ih => simp [List.replicate_succ, ih]

theorem List.getElem?_replicate_of_lt {α : Type} {n i : Nat} {a : α} (h : i < n) :
    (List.replicate n a)[i]? = some a := by
  rw [List.getElem?_eq_getElem (by simpa using h)]
  simp

theorem take_getElem?_lt {α : Type} :
    ∀ (l : List α) (n i : Nat), i < n → (l.take n)[i]? = l[i]? := by
  intro l
  induction l with
  | nil => intro n i _; simp
  | cons a t ih =>
      intro n i hin
      cases n with
      | zero => omega
      | succ n2 =>
          cases i with
          | zero => simp
          | succ i2 => simpa using ih n2 i2 (by omega)

theorem flatten_uniform_length {α : Type} {tw : Nat} :
    ∀ {rows : List (List α)}, (∀ r ∈ rows, r.length = tw) →
      rows.flatten.length = rows.length * tw := by
  intro rows
  induction rows with
  | nil => intro _; simp
  | cons r rest ih =>
      intro huni
      simp only [List.flatten_cons, List.length_append, List.length_cons,
        ih (fun r hr => huni r (List.mem_cons_of_mem _ hr)),
        huni r (List.mem_cons_self _ _)]
      ring

theorem flatten_uniform_getElem {α : Type} {tw : Nat} :
    ∀ {rows : List (List α)}, (∀ r ∈ rows, r.length = tw) →
      ∀ {x y : Nat}, x < tw →
      rows.flatten[y * tw + x]? = rows[y]?.bind (fun r => r[x]?) := by
  intro rows
  induction rows with
  | nil => intro _ x y _; simp
  | cons r rest ih =>
      intro huni x y hx
      have hr : r.length = tw := huni r (List.mem_cons_self _ _)
      have hrest : ∀ rr ∈ rest, rr.length = tw :=
        fun rr hrm => huni rr (List.mem_cons_of_mem _ hrm)
      cases y with
      | zero =>
          simp only [Nat.zero_mul, Nat.zero_add, List.flatten_cons]
          rw [List.getElem?_append_left (by omega)]
          simp
      | succ y2 =>
          simp only [List.flatten_cons]
          rw [List.getElem?_append_right (by rw [hr]; nlinarith)]
          have harith : (y2 + 1) * tw + x - r.length = y2 * tw + x := by
            rw [hr]
            have : (y2 + 1) * tw = y2 * tw + tw := by ring
            omega
          rw [harith, ih hrest hx]
          simp

/-- The `resize_map2` construction, under enlarging sizes, as a flat list
of uniform rows: `(th-h)/2` filler rows, the `h` padded original rows,
`(th-h+1)/2` filler rows. -/
theorem resize_map2_eq_rows (w h tw th : Nat) (m : List Cell) (hw : w ≤ tw) (hh : h ≤ th) :
    resize_map2 w h tw th m =
      ((List.replicate ((th - h) / 2) (List.replicate tw ((GameObject.EMPTY, Direction.NOWHERE) : Cell)))
       ++ ((List.range h).map (fun y =>
             (List.replicate tw ((GameObject.EMPTY, Direction.NOWHERE) : Cell)).take ((tw - w) / 2)
             ++ ((m.drop (y * w)).take w)
             ++ (List.replicate tw ((GameObject.EMPTY, Direction.NOWHERE) : Cell)).take ((tw - w + 1) / 2)))
       ++ (List.replicate ((th - h + 1) / 2) (List.replicate tw ((GameObject.EMPTY, Direction.NOWHERE) : Cell)))).flatten := by
  unfold resize_map2
  simp only [show (tw : Int) - (w : Int) = ((tw - w : Nat) : Int) by omega,
    show (th : Int) - (h : Int) = ((th - h : Nat) : Int) by omega,
    pyHalfFloor_ofNat, pyHalfCeil_ofNat, pySliceTo_ofNat, map_const_replicate,
    pythonRange_length, Int.sub_zero, Int.toNat_natCast, List.flatten_append]

theorem resize_rows_uniform (w h tw th : Nat) (m : List Cell) (hw : w ≤ tw)
    (hm : m.length = w * h) :
    ∀ r ∈ ((List.replicate ((th - h) / 2) (List.replicate tw ((GameObject.EMPTY, Direction.NOWHERE) : Cell)))
       ++ ((List.range h).map (fun y =>
             (List.replicate tw ((GameObject.EMPTY, Direction.NOWHERE) : Cell)).take ((tw - w) / 2)
             ++ ((m.drop (y * w)).take w)
             ++ (List.replicate tw ((GameObject.EMPTY, Direction.NOWHERE) : Cell)).take ((tw - w + 1) / 2)))
       ++ (List.replicate ((th - h + 1) / 2) (List.replicate tw ((GameObject.EMPTY, Direction.NOWHERE) : Cell)))),
      r.length = tw := by
  intro r hr
  rw [List.mem_append, List.mem_append] at hr
  rcases hr with (hr | hr) | hr
  · rw [List.eq_of_mem_replicate hr]; simp
  · rw [List.mem_map] at hr
    obtain ⟨y, hy, hreq⟩ := hr
    rw [List.mem_range] at hy
    have hjw : y * w + w ≤ w * h := by
      calc y * w + w = (y + 1) * w := by ring
        _ ≤ h * w := Nat.mul_le_mul_right w hy
        _ = w * h := Nat.mul_comm h w
    rw [← hreq]
    simp only [List.length_append, List.length_take, List.length_drop,
      List.length_replicate, hm]
    omega
  · rw [List.eq_of_mem_replicate hr]; simp

/-- Per-cell characterization of `resize_map2` for enlarging resizes. -/
theorem resize_map2_getElem (w h tw th : Nat) (m : List Cell) (hw : w ≤ tw) (hh : h ≤ th)
    (hm : m.length = w * h) (x y : Nat) (hx : x < tw) (hy : y < th) :
    (resize_map2 w h tw th m)[x + y * tw]? =
      if (tw - w) / 2 ≤ x ∧ x < (tw - w) / 2 + w
         ∧ (th - h) / 2 ≤ y ∧ y < (th - h) / 2 + h
      then m[(x - (tw - w) / 2) + (y - (th - h) / 2) * w]?
      else some ((GameObject.EMPTY, Direction.NOWHERE) : Cell) := by
  rw [resize_map2_eq_rows w h tw th m hw hh, Nat.add_comm x (y * tw),
    flatten_uniform_getElem (resize_rows_uniform w h tw th m hw hm) hx]
  have hvert : (th - h) / 2 + h + (th - h + 1) / 2 = th := by omega
  have hhor : (tw - w) / 2 + w + (tw - w + 1) / 2 = tw := by omega
  rw [List.append_assoc]
  by_cases hyTop : y < (th - h) / 2
  · rw [List.getElem?_append_left (by simpa using hyTop), List.getElem?_replicate_of_lt hyTop]
    rw [if_neg (by omega)]
    simp only [Option.some_bind]
    exact List.getElem?_replicate_of_lt hx
  · push_neg at hyTop
    rw [List.getElem?_append_right (by simpa using hyTop), List.length_replicate]
    by_cases hyMid : y - (th - h) / 2 < h
    · rw [List.getElem?_append_left (by simpa using hyMid), List.getElem?_map,
        List.getElem?_range hyMid]
      simp only [Option.map_some', Option.some_bind]
      -- inside the padded original row
      have hjw : (y - (th - h) / 2) * w + w ≤ w * h := by
        calc (y - (th - h) / 2) * w + w = ((y - (th - h) / 2) + 1) * w := by ring
          _ ≤ h * w := Nat.mul_le_mul_right w (by omega)
          _ = w * h := Nat.mul_comm h w
      have hlenL : ((List.replicate tw ((GameObject.EMPTY, Direction.NOWHERE) : Cell)).take ((tw - w) / 2)).length = (tw - w) / 2 := by
        simp only [List.length_take, List.length_replicate]
        omega
      have hlenM : ((m.drop ((y - (th - h) / 2) * w)).take w).length = w := by
        simp only [List.length_take, List.length_drop, hm]
        omega
      rw [List.append_assoc]
      by_cases hxL : x < (tw - w) / 2
      · rw [List.getElem?_append_left (by rw [hlenL]; exact hxL),
          List.getElem?_take_of_lt hxL, List.getElem?_replicate_of_lt hx, if_neg (by omega)]
      · push_neg at hxL
        rw [List.getElem?_append_right (by rw [hlenL]; exact hxL), hlenL]
        by_cases hxM : x - (tw - w) / 2 < w
        · rw [List.getElem?_append_left (by rw [hlenM]; exact hxM),
            List.getElem?_take_of_lt hxM, List.getElem?_drop, if_pos (by omega)]
          congr 1
          omega
        · push_neg at hxM
          rw [List.getElem?_append_right (by rw [hlenM]; exact hxM), hlenM,
            List.getElem?_take_of_lt (by omega), List.getElem?_replicate_of_lt (by omega),
            if_neg (by omega)]
    · push_neg at hyMid
      rw [List.getElem?_append_right (by simpa using hyMid), List.length_map,
        List.length_range, List.getElem?_replicate_of_lt (by omega), if_neg (by omega)]
      simp only [Option.some_bind]
      exact List.getElem?_replicate_of_lt hx

/-- C6: for a cave whose map is consistent with its dimensions, resizing
to a larger `tw x th` succeeds (the assert holds), yields a `tw x th`
grid of exactly `tw * th` cells, places the original content centered
with floor top/left margins `(th-h)/2` and `(tw-w)/2` (the bottom/right
margins being the matching ceilings, since the counts add up to the new
sizes), and every newly introduced cell is `(EMPTY, NOWHERE)`.
Instantiated at 10 x 8 to 14 x 10 this puts the original content at
column 2, row 1 (see the witness). -/
theorem C6_resize (cave : Cave) (tw th : Nat)
    (hw : cave.width ≤ tw) (hh : cave.height ≤ th)
    (hm : cave.map.length = cave.width * cave.height) :
    (cave.resize tw th).isOk = true
    ∧ ((cave.resize tw th).toOption.map Cave.width).getD 0 = tw
    ∧ ((cave.resize tw th).toOption.map Cave.height).getD 0 = th
    ∧ (((cave.resize tw th).toOption.map Cave.map).getD []).length = tw * th
    ∧ (∀ x y : Nat, x < tw → y < th →
        (((cave.resize tw th).toOption.map Cave.map).getD [])[x + y * tw]? =
          if (tw - cave.width) / 2 ≤ x ∧ x < (tw - cave.width) / 2 + cave.width
             ∧ (th - cave.height) / 2 ≤ y ∧ y < (th - cave.height) / 2 + cave.height
          then cave.map[(x - (tw - cave.width) / 2) + (y - (th - cave.height) / 2) * cave.width]?
          else some ((GameObject.EMPTY, Direction.NOWHERE) : Cell)) := by
  have hlen : (resize_map2 cave.width cave.height tw th cave.map).length = tw * th := by
    rw [resize_map2_eq_rows _ _ _ _ _ hw hh,
      flatten_uniform_length (resize_rows_uniform _ _ _ _ _ hw hm)]
    simp only [List.length_append, List.length_replicate, List.length_map, List.length_range]
    have hsum : (th - cave.height) / 2 + cave.height + (th - cave.height + 1) / 2 = th := by
      omega
    rw [hsum, Nat.mul_comm]
  have hres : cave.resize tw th =
      .ok { cave with
              width := tw
              height := th
              map := resize_map2 cave.width cave.height tw th cave.map } := by
    unfold Cave.resize
    rw [if_pos hlen]
  rw [hres]
  refine ⟨rfl, rfl, rfl, hlen, ?_⟩
  intro x y hx hy
  exact resize_map2_getElem cave.width cave.height tw th cave.map hw hh hm x y hx hy

/-- Witness for C6: resizing the 10 x 8 cave to 14 x 10 succeeds, gives
140 cells, places the original content starting at column 2, row 1, and a
border cell is empty. -/
theorem C6_resize_witness :
    (cave10x8.resize 14 10).isOk = true
    ∧ (((cave10x8.resize 14 10).toOption.map Cave.map).getD []).length = 140
    ∧ (((cave10x8.resize 14 10).toOption.map Cave.map).getD [])[2 + 1 * 14]? =
        some ((GameObject.DIRT, Direction.NOWHERE) : Cell)
    ∧ (((cave10x8.resize 14 10).toOption.map Cave.map).getD [])[0 + 0 * 14]? =
        some ((GameObject.EMPTY, Direction.NOWHERE) : Cell) := by
  have H := C6_resize cave10x8 14 10 (by decide) (by decide) (by decide)
  refine ⟨H.1, H.2.2.2.1, ?_, ?_⟩
  · exact (H.2.2.2.2 2 1 (by decide) (by decide)).trans
      ((if_pos (by decide)).trans (by decide))
  · exact (H.2.2.2.2 0 0 (by decide) (by decide)).trans (if_neg (by decide))

theorem ExceptRel_bind {β γ β2 γ2 : Type} {R : β → γ → Prop} {S : β2 → γ2 → Prop}
    {a : Except String β} {b : Except String γ} (h : ExceptRel R a b)
    {f : β → Except String β2} {g : γ → Except String γ2}
    (hk : ∀ x y, R x y → ExceptRel S (f x) (g y)) :
    ExceptRel S (a >>= f) (b >>= g) := by
  cases a with
  | error e =>
      cases b with
      | error e2 => exact trivial
      | ok y => exact h.elim
  | ok x =>
      cases b with
      | error e2 => exact h.elim
      | ok y => exact hk x y h

theorem ExceptRel_same {β : Type} (a : Except String β) :
    ExceptRel (fun x y => x = y) a a := by
  cases a with
  | error e => exact trivial
  | ok x => exact rfl

theorem ExceptRel_foldlM {α β γ : Type} {R : β → γ → Prop} (l : List α)
    {f : β → α → Except String β} {g : γ → α → Except String γ}
    (hstep : ∀ x y a, R x y → ExceptRel R (f x a) (g y a)) :
    ∀ {x : β} {y : γ}, R x y → ExceptRel R (l.foldlM f x) (l.foldlM g y) := by
  induction l with
  | nil => intro x y h; exact h
  | cons a t ih =>
      intro x y h
      exact ExceptRel_bind (hstep x y a h) (fun x2 y2 h2 => ih h2)

theorem ExceptRel_ok_right {β γ : Type} {R : β → γ → Prop}
    {a : Except String β} {b : Except String γ} (h : ExceptRel R a b)
    {y : γ} (hb : b = .ok y) : ∃ x, a = .ok x ∧ R x y := by
  subst hb
  cases a with
  | error e => exact h.elim
  | ok x => exact ⟨x, rfl, h⟩

theorem encodeBuf_replicate (L : Nat) : encodeBuf (List.replicate L 0) = 0 := by
  induction L with
  | zero => rfl
  | succ k ih => simp [List.replicate, encodeBuf, ih]

theorem byte_head_mod {c E : Nat} (hc : c < 256) : (c + 256 * E) % 256 = c := by
  rw [Nat.add_mul_mod_self_left]
  exact Nat.mod_eq_of_lt hc

theorem byte_head_div {c E : Nat} (hc : c < 256) : (c + 256 * E) / 256 = E := by
  rw [Nat.add_mul_div_left c E (by norm_num : 0 < 256), Nat.div_eq_of_lt hc, Nat.zero_add]

theorem encodeBuf_set : ∀ (cm : List Nat) (j v : Nat), j < cm.length →
    (∀ c ∈ cm, c < 256) →
    encodeBuf (cm.set j v) = setDigit (encodeBuf cm) j v := by
  intro cm
  induction cm with
  | nil => intro j v hj _; simp at hj
  | cons c t ih =>
      intro j v hj hb
      have hc : c < 256 := hb c (List.mem_cons_self c t)
      have hbt : ∀ x ∈ t, x < 256 := fun x hx => hb x (List.mem_cons_of_mem c hx)
      cases j with
      | zero =>
          show encodeBuf (v :: t) = setDigit (encodeBuf (c :: t)) 0 v
          simp only [encodeBuf, setDigit, pow_zero, Nat.zero_add, pow_one,
            Nat.mod_one, Nat.mul_one]
          rw [byte_head_div hc]
          omega
      | succ j =>
          have hjt : j < t.length := by simpa using hj
          show encodeBuf (c :: t.set j v) = setDigit (encodeBuf (c :: t)) (j + 1) v
          simp only [encodeBuf]
          rw [ih j v hjt hbt]
          have hP1 : (256 : Nat) ^ (j + 1) = 256 * 256 ^ j := by ring
          have hdm : 256 ^ j * (encodeBuf t / 256 ^ j) + encodeBuf t % 256 ^ j
              = encodeBuf t := Nat.div_add_mod (encodeBuf t) (256 ^ j)
          have hm : encodeBuf t % 256 ^ j < 256 ^ j :=
            Nat.mod_lt _ (pow_pos (by norm_num) j)
          have hsplit : c + 256 * encodeBuf t =
              c + 256 * (encodeBuf t % 256 ^ j)
                + encodeBuf t / 256 ^ j * (256 * 256 ^ j) := by
            nth_rewrite 1 [← hdm]
            ring
          have h1 : (c + 256 * encodeBuf t) % 256 ^ (j + 1)
              = c + 256 * (encodeBuf t % 256 ^ j) := by
            rw [hsplit, hP1, Nat.add_mul_mod_self_right]
            exact Nat.mod_eq_of_lt (by omega)
          have h2 : (c + 256 * encodeBuf t) / 256 ^ (j + 1 + 1)
              = encodeBuf t / 256 ^ (j + 1) := by
            rw [show (256 : Nat) ^ (j + 1 + 1) = 256 * 256 ^ (j + 1) from by ring,
              ← Nat.div_div_eq_div_mul, byte_head_div hc]
          unfold setDigit
          rw [h1, h2]
          ring

theorem bytes_set {cm : List Nat} {j v : Nat} (hb : ∀ c ∈ cm, c < 256) (hv : v < 256) :
    ∀ c ∈ cm.set j v, c < 256 := by
  intro c hc
  rcases List.mem_or_eq_of_mem_set hc with h | h
  · exact hb c h
  · rw [h]; exact hv

theorem fastSet_R {L : Nat} {cm : List Nat} {buf : Nat} (h : BufR L cm buf)
    (i : Int) (v : Nat) :
    ExceptRel (BufR L) (pythonSet cm i v) (fastSet L buf i v) := by
  obtain ⟨hlen, hb, henc⟩ := h
  subst hlen
  subst henc
  by_cases hv : 255 < v
  · simp only [pythonSet, fastSet, if_pos hv]
    exact trivial
  · simp only [pythonSet, fastSet, if_neg hv]
    by_cases h1 : 0 ≤ i ∧ i < (cm.length : Int)
    · simp only [if_pos h1]
      obtain ⟨h1a, h1b⟩ := h1
      exact ⟨by simp, bytes_set hb (by omega), encodeBuf_set cm i.toNat v (by omega) hb⟩
    · simp only [if_neg h1]
      by_cases h2 : -(cm.length : Int) ≤ i ∧ i < 0
      · simp only [if_pos h2]
        obtain ⟨h2a, h2b⟩ := h2
        exact ⟨by simp, bytes_set hb (by omega),
          encodeBuf_set cm ((cm.length : Int) + i).toNat v (by omega) hb⟩
      · simp only [if_neg h2]
        exact trivial

theorem fast_draw_single_R (L w obj : Nat) (x y : Int) {cm : List Nat} {buf : Nat}
    (h : BufR L cm buf) :
    ExceptRel (BufR L) (draw_single w obj x y cm) (fast_draw_single L w obj x y buf) :=
  fastSet_R h (x + y * (w : Int)) obj

theorem fast_draw_line_steps_R {L w obj : Nat} {dx dy : Int} (k : Nat) :
    ∀ (x y : Int) (cm : List Nat) (buf : Nat), BufR L cm buf →
      ExceptRel (BufR L) (draw_line_steps w obj dx dy k x y cm)
        (fast_draw_line_steps L w obj dx dy k x y buf) := by
  induction k with
  | zero => intro x y cm buf h; exact h
  | succ k ih =>
      intro x y cm buf h
      exact ExceptRel_bind (fast_draw_single_R L w obj x y h)
        (fun cm2 buf2 h2 => ih (x + dx) (y + dy) cm2 buf2 h2)

theorem fast_draw_line_R (L w obj : Nat) (x y len dir : Int) {cm : List Nat} {buf : Nat}
    (h : BufR L cm buf) :
    ExceptRel (BufR L) (draw_line w obj x y len dir cm)
      (fast_draw_line L w obj x y len dir buf) := by
  unfold draw_line fast_draw_line
  cases hd : pythonGet directionTable dir with
  | error e => exact trivial
  | ok d => exact fast_draw_line_steps_R len.toNat x y cm buf h

theorem fast_draw_rectangle_R (L w obj : Nat) (x1 y1 : Int) (width height : Nat)
    (fo : Option Nat) {cm : List Nat} {buf : Nat} (h : BufR L cm buf) :
    ExceptRel (BufR L) (draw_rectangle w obj x1 y1 width height fo cm)
      (fast_draw_rectangle L w obj x1 y1 width height fo buf) := by
  unfold draw_rectangle fast_draw_rectangle
  refine ExceptRel_bind (fast_draw_line_R L w obj x1 y1 (width : Int) 2 h)
    (fun cm2 buf2 h2 => ?_)
  refine ExceptRel_bind
    (fast_draw_line_R L w obj x1 (y1 + (height : Int) - 1) (width : Int) 2 h2)
    (fun cm3 buf3 h3 => ?_)
  refine ExceptRel_bind
    (fast_draw_line_R L w obj x1 (y1 + 1) ((height : Int) - 2) 4 h3)
    (fun cm4 buf4 h4 => ?_)
  refine ExceptRel_bind
    (fast_draw_line_R L w obj (x1 + (width : Int) - 1) (y1 + 1) ((height : Int) - 2) 4 h4)
    (fun cm5 buf5 h5 => ?_)
  cases fo with
  | none => exact h5
  | some f =>
      show ExceptRel (BufR L)
        ((pythonRange (y1 + 1) (y1 + (height : Int) - 1)).foldlM
          (fun cm y => draw_line w f (x1 + 1) y ((width : Int) - 2) 2 cm) cm5)
        ((pythonRange (y1 + 1) (y1 + (height : Int) - 1)).foldlM
          (fun buf y => fast_draw_line L w f (x1 + 1) y ((width : Int) - 2) 2 buf) buf5)
      exact ExceptRel_foldlM (pythonRange (y1 + 1) (y1 + (height : Int) - 1))
        (fun cm6 buf6 y h6 => fast_draw_line_R L w f (x1 + 1) y ((width : Int) - 2) 2 h6) h5

theorem fast_fill_cell_R (L w : Nat) (ro rp : List Nat) (x y : Int)
    {st : (Nat × Nat) × List Nat} {stf : (Nat × Nat) × Nat} (h : StR L st stf) :
    ExceptRel (StR L) (fill_cell w ro rp x y st) (fast_fill_cell L w ro rp x y stf) := by
  obtain ⟨h1, h2⟩ := h
  unfold fill_cell fast_fill_cell
  rw [h1]
  refine ExceptRel_bind (fast_draw_single_R L w
    ((ro.zip rp).foldl (fun obj pr => if (bdrandom stf.1).1 < pr.2 then pr.1 else obj) 0x01)
    x y h2) ?_
  exact fun cm2 buf2 hb => ⟨rfl, hb⟩

theorem fast_random_fill_R (w h : Nat) (ro rp : List Nat) (seed : Nat) :
    ExceptRel (StR (w * h)) (random_fill w h ro rp seed)
      (fast_random_fill w h ro rp seed) := by
  unfold random_fill fast_random_fill
  refine ExceptRel_foldlM (pythonRange 1 ((h : Int) - 1))
    (fun st stf y hst =>
      ExceptRel_foldlM (pythonRange 0 (w : Int))
        (fun st2 stf2 x h2 => fast_fill_cell_R (w * h) w ro rp x y h2) hst) ?_
  exact ⟨rfl, by simp, fun c hc => by rw [List.eq_of_mem_replicate hc]; omega,
    encodeBuf_replicate (w * h)⟩

theorem fast_background_R (w h : Nat) (ro rp : List Nat) (seed : Nat) :
    ExceptRel (StR (w * h)) (background w h ro rp seed)
      (fast_background w h ro rp seed) := by
  unfold background fast_background
  refine ExceptRel_bind (fast_random_fill_R w h ro rp seed) (fun st stf hst => ?_)
  refine ExceptRel_bind (fast_draw_rectangle_R (w * h) w 0x07 0 0 w h none hst.2)
    (fun cm buf hb => ?_)
  exact ⟨hst.1, hb⟩

theorem fast_dispatch_R (L w : Nat) (data : List Nat) (n : Nat) (cm : List Nat)
    (buf : Nat) (obj kind : Nat) (x y : Int) (h : BufR L cm buf) :
    ExceptRel (fun (r : List Nat × Nat) (rf : Nat × Nat) => BufR L r.1 rf.1 ∧ r.2 = rf.2)
      (dispatch_kind w data n cm obj kind x y)
      (fast_dispatch_kind L w data n buf obj kind x y) := by
  cases kind with
  | zero =>
      refine ExceptRel_bind (fast_draw_single_R L w obj x y h) ?_
      exact fun cm2 buf2 h2 => ⟨h2, rfl⟩
  | succ k1 =>
    cases k1 with
    | zero =>
        refine ExceptRel_bind (ExceptRel_same (getByte data (n + 3))) ?_
        rintro a b rfl
        refine ExceptRel_bind (ExceptRel_same (getByte data (n + 4))) ?_
        rintro a2 b2 rfl
        refine ExceptRel_bind (fast_draw_line_R L w obj x y (a : Int) (a2 : Int) h) ?_
        exact fun cm2 buf2 h2 => ⟨h2, rfl⟩
    | succ k2 =>
      cases k2 with
      | zero =>
          refine ExceptRel_bind (ExceptRel_same (getByte data (n + 3))) ?_
          rintro a b rfl
          refine ExceptRel_bind (ExceptRel_same (getByte data (n + 4))) ?_
          rintro a2 b2 rfl
          refine ExceptRel_bind (ExceptRel_same (getByte data (n + 5))) ?_
          rintro a3 b3 rfl
          refine ExceptRel_bind (fast_draw_rectangle_R L w obj x y a a2 (some a3) h) ?_
          exact fun cm2 buf2 h2 => ⟨h2, rfl⟩
      | succ k3 =>
        cases k3 with
        | zero =>
            refine ExceptRel_bind (ExceptRel_same (getByte data (n + 3))) ?_
            rintro a b rfl
            refine ExceptRel_bind (ExceptRel_same (getByte data (n + 4))) ?_
            rintro a2 b2 rfl
            refine ExceptRel_bind (fast_draw_rectangle_R L w obj x y a a2 none h) ?_
            exact fun cm2 buf2 h2 => ⟨h2, rfl⟩
        | succ k4 => exact trivial

theorem fast_interpret_R (L w : Nat) (data : List Nat) (fuel : Nat) :
    ∀ (cm : List Nat) (buf n : Nat), BufR L cm buf →
      ExceptRel (BufR L) (interpret w data fuel cm n)
        (fast_interpret L w data fuel buf n) := by
  induction fuel with
  | zero => intro cm buf n h; exact h
  | succ fuel ih =>
      intro cm buf n h
      unfold interpret fast_interpret
      by_cases hn : n < data.length
      · simp only [dif_pos hn]
        by_cases hff : data.get ⟨n, hn⟩ < 0xff
        · simp only [if_pos hff]
          cases hx : getByte data (n + 1) with
          | error e => exact trivial
          | ok x =>
              cases hy : getByte data (n + 2) with
              | error e => exact trivial
              | ok y0 =>
                  have hd := fast_dispatch_R L w data n cm buf
                    (data.get ⟨n, hn⟩ &&& 0x3f) ((data.get ⟨n, hn⟩ &&& 0xc0) >>> 6)
                    (x : Int) ((y0 : Int) - 2) h
                  show ExceptRel (BufR L)
                    (match dispatch_kind w data n cm (data.get ⟨n, hn⟩ &&& 0x3f)
                        ((data.get ⟨n, hn⟩ &&& 0xc0) >>> 6) (x : Int) ((y0 : Int) - 2) with
                      | .ok r => interpret w data fuel r.1 r.2
                      | .error e => .error e)
                    (match fast_dispatch_kind L w data n buf (data.get ⟨n, hn⟩ &&& 0x3f)
                        ((data.get ⟨n, hn⟩ &&& 0xc0) >>> 6) (x : Int) ((y0 : Int) - 2) with
                      | .ok r => fast_interpret L w data fuel r.1 r.2
                      | .error e => .error e)
                  cases hdp : dispatch_kind w data n cm (data.get ⟨n, hn⟩ &&& 0x3f)
                      ((data.get ⟨n, hn⟩ &&& 0xc0) >>> 6) (x : Int) ((y0 : Int) - 2) with
                  | error e =>
                      cases hdf : fast_dispatch_kind L w data n buf
                          (data.get ⟨n, hn⟩ &&& 0x3f) ((data.get ⟨n, hn⟩ &&& 0xc0) >>> 6)
                          (x : Int) ((y0 : Int) - 2) with
                      | error e2 => exact trivial
                      | ok rf => rw [hdp, hdf] at hd; exact hd.elim
                  | ok r =>
                      cases hdf : fast_dispatch_kind L w data n buf
                          (data.get ⟨n, hn⟩ &&& 0x3f) ((data.get ⟨n, hn⟩ &&& 0xc0) >>> 6)
                          (x : Int) ((y0 : Int) - 2) with
                      | error e2 => rw [hdp, hdf] at hd; exact hd.elim
                      | ok rf =>
                          rw [hdp, hdf] at hd
                          show ExceptRel (BufR L) (interpret w data fuel r.1 r.2)
                            (fast_interpret L w data fuel rf.1 rf.2)
                          rw [← hd.2]
                          exact ih r.1 rf.1 r.2 hd.1
        · simp only [if_neg hff]
          exact h
      · simp only [dif_neg hn]
        exact h

theorem translate_ok_of_fast : ∀ (cm : List Nat), (∀ c ∈ cm, c < 256) →
    fast_translate_all cm.length (encodeBuf cm) = true →
    ∃ r, translate_codes cm = .ok r := by
  intro cm
  induction cm with
  | nil => intro _ _; exact ⟨[], rfl⟩
  | cons c t ih =>
      intro hb hf
      have hc : c < 256 := hb c (List.mem_cons_self c t)
      have hbt : ∀ x ∈ t, x < 256 := fun x hx => hb x (List.mem_cons_of_mem c hx)
      rw [show fast_translate_all (c :: t).length (encodeBuf (c :: t))
          = (((conversion.lookup ((c + 256 * encodeBuf t) % 256)).isSome)
            && fast_translate_all t.length ((c + 256 * encodeBuf t) / 256)) from rfl] at hf
      rw [byte_head_mod hc, byte_head_div hc, Bool.and_eq_true] at hf
      obtain ⟨h1, h2⟩ := hf
      obtain ⟨r, hr⟩ := ih hbt h2
      cases hl : conversion.lookup c with
      | none => rw [hl] at h1; simp at h1
      | some cell =>
          refine ⟨cell :: r, ?_⟩
          unfold translate_codes
          rw [List.mapM_cons]
          unfold translate_codes at hr
          simp only [hl, bind_ok, hr]
          rfl

theorem build_map_ok_of_fast {w h : Nat} {ro rp : List Nat} {seed : Nat} {data : List Nat}
    (hf : fast_build_ok w h ro rp seed data = true) :
    ∃ m, build_map w h ro rp seed data = .ok m := by
  unfold fast_build_ok at hf
  split at hf
  case h_2 e heq => simp at hf
  case h_1 buf heq =>
    obtain ⟨bgf, hbgf, hif⟩ := except_bind_ok heq
    obtain ⟨bg, hbg, hrel⟩ := ExceptRel_ok_right (fast_background_R w h ro rp seed) hbgf
    obtain ⟨cm, hcm, hbufr⟩ := ExceptRel_ok_right
      (fast_interpret_R (w * h) w data (data.length + 1) bg.2 bgf.2 0 hrel.2) hif
    obtain ⟨hlen, hby, henc⟩ := hbufr
    rw [← hlen, ← henc] at hf
    obtain ⟨m, hm⟩ := translate_ok_of_fast cm hby hf
    refine ⟨m, ?_⟩
    unfold build_map
    rw [hbg]
    rw [bind_ok]
    rw [hcm]
    rw [bind_ok]
    exact hm

theorem getByte_lt {data : List Nat} {k : Nat} (h : k < data.length) :
    getByte data k = .ok (data.getD k 0) := by
  unfold getByte
  rw [dif_pos h]
  congr 1
  simp [List.getD_eq_getElem?_getD, List.getElem?_eq_getElem h]

theorem decode_ok_of_fast {n : Nat} (hf : fast_decode_ok n = true) :
    ∃ c, decode_from_lvl n = .ok c := by
  unfold fast_decode_ok at hf
  split at hf
  case isFalse => exact absurd hf (by simp)
  case isTrue h =>
    simp only [Bool.and_eq_true, decide_eq_true_eq] at hf
    obtain ⟨hlen, hfb⟩ := hf
    obtain ⟨m, hm⟩ := build_map_ok_of_fast hfb
    have hb1 : n - 1 < BD1CAVES.length := by omega
    have hgb : ∀ k : Nat, k < 0x20 →
        getByte ((BD1CAVES.get ⟨n - 1, hb1⟩).2.2) k
          = .ok (((BD1CAVES.get ⟨n - 1, hb1⟩).2.2).getD k 0) := by
      intro k hk
      exact getByte_lt (by omega)
    cases hd : decode_from_lvl n with
    | ok c => exact ⟨c, rfl⟩
    | error e =>
        exfalso
        unfold decode_from_lvl at hd
        rw [dif_pos h] at hd
        simp only [hgb 0x00 (by norm_num), hgb 0x01 (by norm_num), hgb 0x02 (by norm_num),
          hgb 0x03 (by norm_num), hgb 0x04 (by norm_num), hgb 0x09 (by norm_num),
          hgb 0x0e (by norm_num), hgb 0x13 (by norm_num), hgb 0x14 (by norm_num),
          hgb 0x15 (by norm_num), hgb 0x18 (by norm_num), hgb 0x19 (by norm_num),
          hgb 0x1a (by norm_num), hgb 0x1b (by norm_num), hgb 0x1c (by norm_num),
          hgb 0x1d (by norm_num), hgb 0x1e (by norm_num), hgb 0x1f (by norm_num),
          Palette_init_idx, bind_ok] at hd
        rw [hm, bind_ok] at hd
        exact absurd hd (by simp)

set_option maxHeartbeats 8000000 in
/-- C10: every level number from 1 to 20 (the whole builtin catalog,
including the four intermissions) decodes without error to a cave of
width 40 and height 22 whose translated map holds exactly 880 cells. -/
theorem C10_all_caves_decode (n : Nat) (h1 : 1 ≤ n) (h2 : n ≤ 20) :
    ∃ c, decode_from_lvl n = .ok c
      ∧ c.width = 40 ∧ c.height = 22 ∧ c.map.length = 880 := by
  have hf : fast_decode_ok n = true := by
    interval_cases n <;> decide!
  obtain ⟨c, hc⟩ := decode_ok_of_fast hf
  obtain ⟨hw, hh, hm⟩ := decode_ok_sizes hc
  exact ⟨c, hc, hw, hh, hm⟩

/-- Witness for C10 at level 1. -/
theorem C10_all_caves_decode_witness :
    1 ≤ 1 ∧ 1 ≤ 20
    ∧ ∃ c, decode_from_lvl 1 = .ok c
        ∧ c.width = 40 ∧ c.height = 22 ∧ c.map.length = 880 :=
  ⟨by decide, by decide, C10_all_caves_decode 1 (by decide) (by decide)⟩

end BC

